import Mathlib

/-!
# Verification of the lattice query-orchestration core

Shallow embedding, in Lean 4, of the routing, planning, retrieval,
response-policy, critic/refinement and ingestion code of the `lattice`
repository (`src/lattice/app/...`), together with proofs of the spec's
claims about that code.

Modelling conventions:
* Python `str` is Lean `String`; character-level scanning works on
  `String.data`.  Python's `str.lower` / `\w` / whitespace handling are
  modelled over the ASCII fragment (every hint and literal in the code is
  ASCII).
* Python `float` scores are modelled as `ℚ`; `round(x, 6)` is modelled as
  rounding `x·10⁶` to the nearest integer.
* Remote backends (Supabase vector store, Neo4j graph store, the LLM
  reranker, embedding providers, file parsers) are out of the core per the
  spec; they are modelled as oracle functions returning `Except`, an
  exception being `Except.error` carrying the exception class name used in
  the failure tags.
* The in-process `RuntimeStore` is threaded explicitly; dict fields are
  total functions with `Option` results.  Wall-clock latencies are
  modelled as `0`.
-/

namespace Lattice

/-! ## Character/string helpers shared by the embedded code -/

/-- Python `\w` over the ASCII fragment: letters, digits, underscore. -/
def isWordChar (c : Char) : Bool :=
  c.isAlphanum || c = '_'

/-- `startsWithChars pat t`: `pat` is an initial segment of `t`. -/
def startsWithChars : List Char → List Char → Bool
  | [], _ => true
  | _ :: _, [] => false
  | p :: ps, c :: cs => p = c && startsWithChars ps cs

/-- Python substring test `pat in text`. -/
def containsSub (pat : List Char) : List Char → Bool
  | [] => pat.isEmpty
  | c :: rest => startsWithChars pat (c :: rest) || containsSub pat rest

/-- The character before the current scan position is absent or no word
character (left half of a `\b` anchor). -/
def boundaryBefore : Option Char → Bool
  | none => true
  | some c => !(isWordChar c)

/-- The character after a match is absent or no word character (right half
of a `\b` anchor). -/
def boundaryAfter : List Char → Bool
  | [] => true
  | c :: _ => !(isWordChar c)

/-- Scan of `re.search(rf"\b{hint}\b", text)` for an alphanumeric `hint`:
try every position, requiring word boundaries on both sides. -/
def wordSearchGo (hint : List Char) : Option Char → List Char → Bool
  | prevc, [] => startsWithChars hint [] && boundaryBefore prevc
  | prevc, c :: rest =>
    (startsWithChars hint (c :: rest) && boundaryBefore prevc &&
      boundaryAfter ((c :: rest).drop hint.length))
    || wordSearchGo hint (some c) rest

/-- Python `str.lower` (ASCII). -/
def lowerStr (s : String) : String :=
  ⟨s.data.map Char.toLower⟩

/-- Whitespace splitter used by Python `str.split()` (split on runs of
whitespace, drop empty pieces).  `acc` holds the current token reversed. -/
def splitWsGo : List Char → List Char → List (List Char)
  | [], acc => if acc.isEmpty then [] else [acc.reverse]
  | c :: cs, acc =>
    if c.isWhitespace then
      if acc.isEmpty then splitWsGo cs [] else acc.reverse :: splitWsGo cs []
    else splitWsGo cs (c :: acc)

/-- Python `s.split()` over characters. -/
def splitWs (s : List Char) : List (List Char) :=
  splitWsGo s []

/-- Python `s.strip()` over characters. -/
def stripWs (s : List Char) : List Char :=
  ((s.dropWhile Char.isWhitespace).reverse.dropWhile Char.isWhitespace).reverse

/-- Lexicographic (code-point) `≤` on character lists, as Python string
comparison used by `sorted`. -/
def lexLe : List Char → List Char → Bool
  | [], _ => true
  | _ :: _, [] => false
  | a :: as_, b :: bs =>
    if a < b then true
    else if b < a then false
    else lexLe as_ bs

/-- Stable insertion (ascending by `lexLe`) used to model Python `sorted`
on string lists. -/
def insertLex (x : List Char) : List (List Char) → List (List Char)
  | [] => [x]
  | y :: ys => if lexLe x y then x :: y :: ys else y :: insertLex x ys

/-- Python `sorted` on string lists (ascending, code-point order). -/
def sortLex (l : List (List Char)) : List (List Char) :=
  match l with
  | [] => []
  | x :: xs => insertLex x (sortLex xs)

/-- Python `" ".join(tokens)` over character lists. -/
def joinSpace : List (List Char) → List Char
  | [] => []
  | [t] => t
  | t :: t2 :: rest => t ++ ' ' :: joinSpace (t2 :: rest)

/-! ## Router (`src/lattice/app/orchestration/service.py`) -/

def GRAPH_HINTS : List String :=
  ["graph", "relationship", "depends", "netflix", "cypher", "director",
   "directed", "actor", "actors", "cast", "genre", "country", "rating",
   "title", "titles", "movie", "show", "season", "seasons"]

def DOC_HINTS : List String :=
  ["document", "doc", "pdf", "docx", "file", "notes", "report", "upload"]

def COUNT_HINTS : List String :=
  ["count", "how many", "number of", "total"]

def GRAPH_QUERY_PATTERNS : List String :=
  ["who directed", "who stars", "who acted", "cast of", "genre of",
   "what genre", "which genre", "what country", "which country",
   "what rating", "release year"]

/-- `_contains_hint`: multi-word hints are plain substrings, single words
are word-boundary matched. -/
def containsHint (normalizedQuery hint : String) : Bool :=
  if hint.data.contains ' ' then containsSub hint.data normalizedQuery.data
  else wordSearchGo hint.data none normalizedQuery.data

/-- `_contains_any_hint`. -/
def containsAnyHint (normalizedQuery : String) (hints : List String) : Bool :=
  hints.any (containsHint normalizedQuery)

/-- `_is_graph_domain_question`. -/
def isGraphDomainQuestion (normalizedQuery : String) : Bool :=
  GRAPH_QUERY_PATTERNS.any (fun p => containsSub p.data normalizedQuery.data)
  || containsAnyHint normalizedQuery GRAPH_HINTS

structure RouteDecision where
  path : String
  reason : String
  deriving Repr, DecidableEq

/-- `select_route`. -/
def selectRoute (query : String) : RouteDecision :=
  let normalized := lowerStr query
  let hasGraph := isGraphDomainQuestion normalized
  let hasDocs := containsAnyHint normalized DOC_HINTS
  let isCount := containsAnyHint normalized COUNT_HINTS
  if isCount then ⟨"aggregate", "count-oriented request"⟩
  else if hasGraph && hasDocs then
    ⟨"hybrid", "question references graph and files"⟩
  else if hasGraph then ⟨"graph", "question maps to relationship lookup"⟩
  else if hasDocs then ⟨"document", "question targets private files"⟩
  else ⟨"direct", "no retrieval hint detected"⟩

/-- Spec-side routing function, written from the claim's words: count hint
first, then graph∧document, then graph alone, document alone, else direct
(the "graph hint" of the spec covers the graph-phrase patterns as well,
per §4.1's hint-set list). -/
def claimRoutePath (query : String) : String :=
  let normalized := lowerStr query
  if containsAnyHint normalized COUNT_HINTS then "aggregate"
  else if isGraphDomainQuestion normalized
      && containsAnyHint normalized DOC_HINTS then "hybrid"
  else if isGraphDomainQuestion normalized then "graph"
  else if containsAnyHint normalized DOC_HINTS then "document"
  else "direct"

/-! ## Retrieval data model (`src/lattice/app/retrieval/contracts.py`,
`src/lattice/app/runtime/store.py`) -/

structure RetrievalHit where
  source_id : String
  score : ℚ
  content : String
  source_type : String
  location : String
  deriving Repr, DecidableEq

structure RetrievalBundle where
  route : String
  hits : List RetrievalHit
  degraded : Bool := false
  backend_failures : List String := []
  rerank_strategy : String := "score_normalization_v2"
  deriving Repr, DecidableEq

structure GraphEdge where
  source : String
  relationship : String
  target : String
  evidence : String
  deriving Repr, DecidableEq

structure ChunkMetadata where
  source : String
  page : ℕ
  offset_start : ℕ
  offset_end : ℕ
  user_id : String
  deriving Repr, DecidableEq

structure DocumentChunk where
  chunk_id : String
  content : String
  metadata : ChunkMetadata
  embedding : List ℚ
  deriving Repr, DecidableEq

/-- Rows of `store.shared_demo_documents` (dicts with these keys). -/
structure DemoDocument where
  chunk_id : String
  content : String
  source : String
  deriving Repr, DecidableEq

structure IngestionJob where
  job_id : String
  status : String
  stage : String
  filename : String
  content_type : String
  user_id : String
  chunk_count : ℕ
  error_message : Option String
  deriving Repr, DecidableEq

structure QueuedUpload where
  job_id : String
  user_id : String
  filename : String
  content_type : String
  file_bytes : List ℕ
  user_access_token : Option String
  deriving Repr, DecidableEq

/-- The slice of `RuntimeStore` the embedded operations touch.  Python
dicts become total functions with `Option` results; `private_chunks_by_user`
is accessed with `.get(user_id, [])` so it is a total function to lists. -/
structure RuntimeStore where
  ingestion_jobs : String → Option IngestionJob
  private_chunks_by_user : String → List DocumentChunk
  queued_uploads : String → Option QueuedUpload
  query_embedding_cache : String → Option (List ℚ)
  retrieval_cache : String → Option RetrievalBundle
  shared_demo_documents : List DemoDocument
  shared_graph_edges : List GraphEdge

/-- Truthiness of an optional Python string (`if user_id:`). -/
def truthyOpt : Option String → Bool
  | none => false
  | some s => s ≠ ""

/-- Python `f"{user_id}"` on an `str | None` value. -/
def pyStr : Option String → String
  | none => "None"
  | some s => s

/-! ## Retrieval engine (`src/lattice/app/retrieval/service.py`) -/

def STOP_WORDS : List String :=
  ["a", "an", "and", "are", "for", "from", "in", "is", "of", "on", "the",
   "to", "with"]

/-- `_stable_edge_source_id`: collapse runs of characters outside
`[a-z0-9]` into single dashes (the `re.sub(r"[^a-z0-9]+", "-", ...)`). -/
def collapseNonAlnumGo : List Char → Bool → List Char
  | [], _ => []
  | c :: cs, inRun =>
    if ('a' ≤ c && c ≤ 'z') || ('0' ≤ c && c ≤ '9') then
      c :: collapseNonAlnumGo cs false
    else if inRun then collapseNonAlnumGo cs true
    else '-' :: collapseNonAlnumGo cs true

/-- Python `s.strip("-")`. -/
def stripDashes (s : List Char) : List Char :=
  ((s.dropWhile (· = '-')).reverse.dropWhile (· = '-')).reverse

/-- `_stable_edge_source_id`. -/
def stableEdgeSourceId (source relationship target : String) : String :=
  let joined :=
    (lowerStr source).data ++ '-' :: (lowerStr relationship).data
      ++ '-' :: (lowerStr target).data
  let normalized := stripDashes (collapseNonAlnumGo joined false)
  if normalized.isEmpty then "graph-edge:unknown"
  else "graph-edge:" ++ (⟨normalized⟩ : String)

/-- `_token_overlap_score`: distinct lowercased query tokens found among
the content tokens, over the number of distinct query tokens. -/
def tokenOverlapScore (query content : String) : ℚ :=
  let queryTokens := (splitWs (lowerStr query).data).dedup
  let contentTokens := splitWs (lowerStr content).data
  if queryTokens.isEmpty then 0
  else
    ((queryTokens.filter (fun t => contentTokens.contains t)).length : ℚ)
      / (queryTokens.length : ℚ)

/-- `_semantic_query_key`: lowercase, map non-`[a-z0-9\s]` characters to
spaces, drop stop words, sort the remaining tokens; an all-stop-word or
empty query falls back to the stripped normalisation. -/
def semanticQueryKey (query : String) : String :=
  let normalized :=
    (lowerStr query).data.map fun c =>
      if ('a' ≤ c && c ≤ 'z') || ('0' ≤ c && c ≤ '9') || c.isWhitespace
      then c else ' '
  let tokens :=
    (splitWs normalized).filter fun t =>
      !(STOP_WORDS.map String.data).contains t
  if tokens.isEmpty then ⟨stripWs normalized⟩
  else ⟨joinSpace (sortLex tokens)⟩

/-- `_normalize_scores` followed by the call-site lookup
`score_map.get(value, 0.0)`: min–max normalisation within the group. -/
def normalizeLookup (values : List ℚ) (v : ℚ) : ℚ :=
  match values with
  | [] => 0
  | v0 :: vrest =>
    let minimum := vrest.foldl min v0
    let maximum := vrest.foldl max v0
    if (v0 :: vrest).contains v then
      if maximum ≤ minimum then 1 else (v - minimum) / (maximum - minimum)
    else 0

/-- Python `round(x, 6)` modelled over `ℚ`. -/
def roundQ6 (x : ℚ) : ℚ :=
  (round (x * 1000000) : ℤ) / 1000000

/-- Stable descending insertion by score (equal scores keep the earlier
element first), as Python `sorted(..., reverse=True)`. -/
def insertDesc (h : RetrievalHit) : List RetrievalHit → List RetrievalHit
  | [] => [h]
  | x :: xs => if h.score ≤ x.score then x :: insertDesc h xs else h :: x :: xs

/-- Python `sorted(hits, key=score, reverse=True)` (stable). -/
def sortDescStable (l : List RetrievalHit) : List RetrievalHit :=
  l.foldl (fun acc h => insertDesc h acc) []

/-- `OrderedDict.setdefault` dedup: keep the first hit per `source_id`. -/
def dedupeByIdGo (seen : List String) : List RetrievalHit → List RetrievalHit
  | [] => []
  | h :: t =>
    if h.source_id ∈ seen then dedupeByIdGo seen t
    else h :: dedupeByIdGo (h.source_id :: seen) t

def dedupeById (l : List RetrievalHit) : List RetrievalHit :=
  dedupeByIdGo [] l

/-- `_heuristic_rerank_hits`: group scores by source type, min–max
normalise each group, blend 0.7·semantic + 0.3·lexical, round, sort
descending, dedupe by source id, truncate. -/
def heuristicRerankHits (query : String) (hits : List RetrievalHit)
    (limit : ℕ) : List RetrievalHit :=
  if hits.isEmpty then []
  else
    let groupScores := fun st =>
      (hits.filter (fun h => h.source_type = st)).map (·.score)
    let reranked := hits.map fun h =>
      let semanticScore := normalizeLookup (groupScores h.source_type) h.score
      let lexicalScore := tokenOverlapScore query h.content
      { h with score := roundQ6 (7/10 * semanticScore + 3/10 * lexicalScore) }
    (dedupeById (sortDescStable reranked)).take limit

/-! ### Backend oracles

The remote stores and the LLM reranker are external collaborators (spec
§1, §6.2); each call either returns a value or raises, so they are
modelled as functions into `Except String _`, the error carrying the
exception class name used in the `supabase:`/`neo4j:` failure tags. -/

structure SupabaseOracle where
  match_chunks : List ℚ → ℕ → Except String (List RetrievalHit)
  count_chunks : Except String ℕ

structure Neo4jOracle where
  search : String → ℕ → Except String (List RetrievalHit)
  count_edges : Except String ℕ

structure RetrievalEnv where
  embed_query : String → List ℚ
  supabase : Option SupabaseOracle
  neo4j : Option Neo4jOracle
  /-- Behaviour of `_llm_rerank_hits`'s provider round trip on the top
  ≤ 12 candidates: `none` for an import/invoke/parse failure or a
  non-list payload, `some rows` for the extracted
  `{source_id, score}` rows (duplicates keep the last, as dict
  assignment does). -/
  llm_rerank : String → List RetrievalHit → Option (List (String × ℚ))

/-- Last-wins association lookup (Python dict built by iterating rows). -/
def lastLookup (rows : List (String × ℚ)) (key : String) : Option ℚ :=
  (rows.reverse.find? (fun row => row.1 = key)).map (·.2)

/-- `_llm_rerank_hits`: ask the provider for scores over the top ≤ 12
candidates, bound scores to `[0,1]`, keep only returned source ids, sort,
dedupe, truncate; any failure or empty result yields `[]`. -/
def llmRerankHits (env : RetrievalEnv) (query : String)
    (hits : List RetrievalHit) (limit : ℕ) : List RetrievalHit :=
  if hits.isEmpty then []
  else
    match env.llm_rerank query (hits.take 12) with
    | none => []
    | some rows =>
      let boundedRows := rows.map fun row => (row.1, max 0 (min 1 row.2))
      let reranked :=
        (hits.filter (fun h => (lastLookup boundedRows h.source_id).isSome)).map
          fun h =>
            { h with
              score := roundQ6 ((lastLookup boundedRows h.source_id).getD 0) }
      if reranked.isEmpty then []
      else (dedupeById (sortDescStable reranked)).take limit

/-- `_rerank_hits`. -/
def rerankHits (env : RetrievalEnv) (query : String)
    (hits : List RetrievalHit) (limit : ℕ) (backend : String)
    (runtimeKey : Option String) (_model : String) :
    List RetrievalHit × String :=
  if backend = "llm" && truthyOpt runtimeKey then
    let reranked := llmRerankHits env query hits limit
    if !reranked.isEmpty then (reranked, "llm_rerank_v1")
    else (heuristicRerankHits query hits limit, "score_normalization_v2")
  else (heuristicRerankHits query hits limit, "score_normalization_v2")

/-- `_fallback_document_hits`. -/
def fallbackDocumentHits (store : RuntimeStore) (userId : Option String)
    (query : String) : List RetrievalHit :=
  let hits :=
    if truthyOpt userId then
      ((store.private_chunks_by_user (pyStr userId)).map fun chunk =>
        RetrievalHit.mk chunk.chunk_id (tokenOverlapScore query chunk.content)
          chunk.content "private_document"
          (chunk.metadata.source ++ ":page=" ++ toString chunk.metadata.page
            ++ ":" ++ toString chunk.metadata.offset_start ++ "-"
            ++ toString chunk.metadata.offset_end)).filter
        fun h => 0 < h.score
    else
      (store.shared_demo_documents.map fun chunk =>
        RetrievalHit.mk chunk.chunk_id (tokenOverlapScore query chunk.content)
          chunk.content "demo_document" chunk.source).filter
        fun h => 0 < h.score
  sortDescStable hits

/-- `_fallback_graph_hits`. -/
def fallbackGraphHits (store : RuntimeStore) (query : String) :
    List RetrievalHit :=
  let hits :=
    (store.shared_graph_edges.map fun edge =>
      let content :=
        edge.source ++ " " ++ edge.relationship ++ " " ++ edge.target
          ++ ". Evidence: " ++ edge.evidence
      RetrievalHit.mk
        (stableEdgeSourceId edge.source edge.relationship edge.target)
        (tokenOverlapScore query content) content "shared_graph"
        (edge.source ++ "-" ++ edge.relationship ++ "-" ++ edge.target)).filter
      fun h => 0 < h.score
  sortDescStable hits

/-- `_query_embedding`: embedding cache keyed on the semantic key. -/
def queryEmbedding (env : RetrievalEnv) (store : RuntimeStore)
    (query : String) : List ℚ × RuntimeStore :=
  let semanticKey := semanticQueryKey query
  match store.query_embedding_cache semanticKey with
  | some cached => (cached, store)
  | none =>
    let vector := env.embed_query query
    (vector,
      { store with
        query_embedding_cache := fun k =>
          if k = semanticKey then some vector
          else store.query_embedding_cache k })

/-- `_document_hits`: remote vector store when authenticated and
configured, token-overlap fallback otherwise; exceptions are tagged and
fall back. -/
def documentHits (env : RetrievalEnv) (store : RuntimeStore) (query : String)
    (userId userAccessToken : Option String) (limit : ℕ) :
    List RetrievalHit × List String × RuntimeStore :=
  match env.supabase with
  | some supabase =>
    if truthyOpt userId && truthyOpt userAccessToken then
      let (vector, store') := queryEmbedding env store query
      match supabase.match_chunks vector limit with
      | .ok hits =>
        if !hits.isEmpty then (hits.take limit, [], store')
        else ((fallbackDocumentHits store' userId query).take limit, [], store')
      | .error exc =>
        ((fallbackDocumentHits store' userId query).take limit,
          ["supabase:" ++ exc], store')
    else ((fallbackDocumentHits store userId query).take limit, [], store)
  | none => ((fallbackDocumentHits store userId query).take limit, [], store)

/-- `_graph_hits`. -/
def graphHits (env : RetrievalEnv) (store : RuntimeStore) (query : String)
    (limit : ℕ) : List RetrievalHit × List String :=
  match env.neo4j with
  | some neo4j =>
    match neo4j.search query limit with
    | .ok hits =>
      if !hits.isEmpty then (hits.take limit, [])
      else ((fallbackGraphHits store query).take limit, [])
    | .error exc =>
      ((fallbackGraphHits store query).take limit, ["neo4j:" ++ exc])
  | none => ((fallbackGraphHits store query).take limit, [])

/-- Local document count: the authenticated user's private chunks, or the
shared demo corpus when unauthenticated. -/
def localDocumentCount (store : RuntimeStore) (userId : Option String) : ℕ :=
  if truthyOpt userId then
    (store.private_chunks_by_user (pyStr userId)).length
  else store.shared_demo_documents.length

/-- `_count_documents`: remote count when authenticated and configured,
tagging and falling back to the local count on an exception. -/
def countDocuments (env : RetrievalEnv) (store : RuntimeStore)
    (userId userAccessToken : Option String) : ℕ × List String :=
  match env.supabase with
  | some supabase =>
    if truthyOpt userId && truthyOpt userAccessToken then
      match supabase.count_chunks with
      | .ok n => (n, [])
      | .error exc => (localDocumentCount store userId, ["supabase:" ++ exc])
    else (localDocumentCount store userId, [])
  | none => (localDocumentCount store userId, [])

/-- `_count_graph_edges`. -/
def countGraphEdges (env : RetrievalEnv) (store : RuntimeStore) :
    ℕ × List String :=
  match env.neo4j with
  | some neo4j =>
    match neo4j.count_edges with
    | .ok n => (n, [])
    | .error exc => (store.shared_graph_edges.length, ["neo4j:" ++ exc])
  | none => (store.shared_graph_edges.length, [])

/-- The retrieval cache key
`f"{route}:{user_id}:{semantic_key}:{rerank_backend}:{rerank_model}"`. -/
def mkCacheKey (route userStr semanticKey backend model : String) : String :=
  route ++ ":" ++ userStr ++ ":" ++ semanticKey ++ ":" ++ backend ++ ":"
    ++ model

/-- The synthetic hit built on the aggregate route. -/
def aggregateHit (documentCount graphEdgeCount : ℕ) : RetrievalHit :=
  { source_id := "aggregate-count"
    score := 1
    content :=
      "Aggregate count: documents=" ++ toString documentCount
        ++ ", graph_edges=" ++ toString graphEdgeCount
        ++ ", total=" ++ toString (documentCount + graphEdgeCount)
    source_type := "aggregate"
    location := "aggregate://counts" }

/-- Store with one retrieval-cache binding overwritten. -/
def writeRetrievalCache (store : RuntimeStore) (key : String)
    (bundle : RetrievalBundle) : RuntimeStore :=
  { store with
    retrieval_cache := fun k =>
      if k = key then some bundle else store.retrieval_cache k }

/-- The per-route body of `retrieve` on a cache miss: branch dispatch,
rerank, degradation bookkeeping.  Returns the bundle and the store as
mutated by the branch (the document branch can fill the query-embedding
cache). -/
def retrieveFresh (env : RetrievalEnv) (store : RuntimeStore)
    (route query : String) (userId userAccessToken : Option String)
    (rerankBackend rerankModel : String) (runtimeKey : Option String) :
    RetrievalBundle × RuntimeStore :=
  if route = "graph" then
        let (graphHitRows, graphFailures) := graphHits env store query 8
        let (reranked, rerankStrategy) :=
          rerankHits env query graphHitRows 5 rerankBackend runtimeKey
            rerankModel
        (RetrievalBundle.mk route reranked (!graphFailures.isEmpty)
          graphFailures rerankStrategy, store)
      else if route = "document" then
        let (docHitRows, docFailures, store1) :=
          documentHits env store query userId userAccessToken 8
        let (reranked, rerankStrategy) :=
          rerankHits env query docHitRows 5 rerankBackend runtimeKey
            rerankModel
        (RetrievalBundle.mk route reranked (!docFailures.isEmpty)
          docFailures rerankStrategy, store1)
      else if route = "hybrid" then
        let (docHitRows, docFailures, store1) :=
          documentHits env store query userId userAccessToken 10
        let (graphHitRows, graphFailures) := graphHits env store1 query 10
        let failures := docFailures ++ graphFailures
        let (reranked, rerankStrategy) :=
          rerankHits env query (docHitRows ++ graphHitRows) 6 rerankBackend
            runtimeKey rerankModel
        (RetrievalBundle.mk route reranked (!failures.isEmpty) failures
          rerankStrategy, store1)
      else if route = "aggregate" then
        let (documentCount, docFailures) :=
          countDocuments env store userId userAccessToken
        let (graphEdgeCount, graphFailures) := countGraphEdges env store
        let failures := docFailures ++ graphFailures
        (RetrievalBundle.mk route [aggregateHit documentCount graphEdgeCount]
          (!failures.isEmpty) failures "aggregate_count", store)
      else
        (RetrievalBundle.mk route [] false [] "none", store)

/-- `retrieve`: semantic-cache lookup, fresh per-route computation on a
miss, cache write of the fresh result. -/
def retrieve (env : RetrievalEnv) (store : RuntimeStore) (route query : String)
    (userId userAccessToken : Option String)
    (rerankBackend rerankModel : String) (runtimeKey : Option String) :
    RetrievalBundle × RuntimeStore :=
  let cacheKey := mkCacheKey route (pyStr userId) (semanticQueryKey query)
    rerankBackend rerankModel
  match store.retrieval_cache cacheKey with
  | some cached => (cached, store)
  | none =>
    let (result, store') :=
      retrieveFresh env store route query userId userAccessToken rerankBackend
        rerankModel runtimeKey
    (result, writeRetrievalCache store' cacheKey result)

/-! ## Response policy (`src/lattice/app/response/service.py`) -/

structure Citation where
  source_id : String
  location : String
  deriving Repr, DecidableEq

structure AnswerEnvelope where
  answer : String
  confidence : String
  citations : List Citation
  policy : String
  action : String
  deriving Repr, DecidableEq

/-- `_confidence_for_score`. -/
def confidenceForScore (score : ℚ) : String :=
  if 3/4 ≤ score then "high"
  else if 2/5 ≤ score then "medium"
  else "low"

/-- `build_answer`.  The `_graph_summary` intent-matched extraction only
shapes the summary sentence of the answer text on graph/hybrid routes; it
is passed in as `graphSummary` (a pure function of the query and the top
three contents) and left abstract, since no claim inspects that
sentence. -/
def buildAnswer (graphSummary : String → List String → String)
    (query : String) (retrieval : RetrievalBundle) : AnswerEnvelope :=
  if retrieval.route = "direct" then
    { answer :=
        "I need retrieval evidence for that request. "
          ++ "Try asking with document or graph context."
      confidence := "low"
      citations := []
      policy := "needs_context"
      action :=
        "Ask a question that references private docs, graph entities, or counts." }
  else if retrieval.hits.isEmpty && retrieval.degraded then
    let joined := String.intercalate ", " retrieval.backend_failures
    let backendText := if joined = "" then "unknown backend" else joined
    { answer :=
        "I could not retrieve evidence because part of the retrieval infrastructure "
          ++ "is unavailable (" ++ backendText ++ ")."
      confidence := "low"
      citations := []
      policy := "infra_degraded"
      action := "Retry shortly. If it persists, verify Supabase/Neo4j connectivity." }
  else if retrieval.hits.isEmpty then
    { answer :=
        "I could not find enough evidence in the selected sources. "
          ++ "Upload a relevant file or refine the query terms."
      confidence := "low"
      citations := []
      policy := "low_evidence"
      action := "Refine keywords, add context, or upload relevant documents." }
  else
    let topLines := (retrieval.hits.take 3).map (·.content)
    let citations :=
      (retrieval.hits.take 5).map fun h => Citation.mk h.source_id h.location
    let warningPrefixText :=
      if retrieval.degraded then
        "Warning: one or more retrieval backends failed and fallback data was used ("
          ++ String.intercalate ", " retrieval.backend_failures
          ++ "). Results may be incomplete.\n"
      else ""
    let policy := if retrieval.degraded then "degraded_answer" else "grounded"
    let action :=
      if retrieval.degraded then
        "Retry after backend recovery for a more complete answer."
      else "Ask a follow-up question to drill into cited sources."
    let summary :=
      if retrieval.route = "aggregate" then topLines.headD ""
      else if retrieval.route = "graph" || retrieval.route = "hybrid" then
        graphSummary query topLines
      else "Top evidence from document retrieval:"
    let evidenceLines :=
      String.intercalate "\n" (topLines.map (fun line => "- " ++ line))
    let answerText :=
      warningPrefixText ++ summary ++ "\n"
        ++ "Rerank: `" ++ retrieval.rerank_strategy ++ "`\n"
        ++ "Evidence:\n" ++ evidenceLines
    let confidence0 :=
      confidenceForScore ((retrieval.hits.headD (aggregateHit 0 0)).score)
    let confidence :=
      if retrieval.degraded && confidence0 = "high" then "medium"
      else confidence0
    { answer := answerText
      confidence := confidence
      citations := citations
      policy := policy
      action := action }

/-! ## Critic (`src/lattice/app/llm/providers.py`) -/

structure CriticDecision where
  should_refine : Bool
  reason : String
  deriving Repr, DecidableEq

/-- Shape of `CriticModel.evaluate`. -/
def CriticFn : Type :=
  String → String → ℚ → ℕ → CriticDecision

/-- `DeterministicCriticModel.evaluate`. -/
def deterministicCritic : CriticFn := fun _question route topScore hitCount =>
  if (route = "graph" || route = "document")
      && (topScore < 7/20 || hitCount < 2) then
    ⟨true, "low evidence on single-source route"⟩
  else ⟨false, "evidence is sufficient"⟩

/-! ## Orchestrator (`src/lattice/app/orchestration/service.py`)

The embedding covers the planner budget gate (shared by both engines) and
the sequential driver `_run_without_langgraph` plus `_maybe_refine`
(`use_langgraph=False`; the LangGraph DAG delegates to the same
`retrieve`/`build_answer`/`_maybe_refine` operations).  Wall-clock
latencies are modelled as `0` milliseconds. -/

structure ToolDecision where
  tool_name : String
  rationale : String
  latency_ms : Option ℤ := none
  status : String := "ok"
  attempt : ℕ := 1
  deriving Repr, DecidableEq

structure OrchestrationResult where
  route : String
  route_reason : String
  retrieval : RetrievalBundle
  answer : AnswerEnvelope
  tool_decisions : List ToolDecision
  deriving Repr, DecidableEq

/-- `_planned_steps`. -/
def plannedSteps (route : String) : List String :=
  if route = "direct" then ["synthesis"]
  else if route = "document" then ["document_retrieval", "synthesis"]
  else if route = "graph" then ["graph_retrieval", "synthesis"]
  else if route = "hybrid" then
    ["document_retrieval", "graph_retrieval", "hybrid_merge", "synthesis"]
  else if route = "aggregate" then ["aggregate_retrieval", "synthesis"]
  else ["synthesis"]

/-- `_with_planner_decision`: prepend the ok planner decision. -/
def withPlannerDecision (result : OrchestrationResult) (route : String)
    (plannerMaxSteps : ℤ) : OrchestrationResult :=
  let planned := plannedSteps route
  let plannerDecision : ToolDecision :=
    { tool_name := "planner"
      rationale :=
        "planned_steps=" ++ toString planned.length ++ ", max_steps="
          ++ toString plannerMaxSteps ++ ", plan="
          ++ String.intercalate "," planned
      status := "ok" }
  { result with tool_decisions := plannerDecision :: result.tool_decisions }

/-- `_run_without_langgraph`. -/
def runWithoutLanggraph (env : RetrievalEnv)
    (graphSummary : String → List String → String) (store : RuntimeStore)
    (question : String) (userId userAccessToken : Option String)
    (rerankBackend rerankModel : String) (runtimeKey : Option String) :
    OrchestrationResult × RuntimeStore :=
  let routeDecision := selectRoute question
  let (retrieval, store') :=
    retrieve env store routeDecision.path question userId userAccessToken
      rerankBackend rerankModel runtimeKey
  let answer := buildAnswer graphSummary question retrieval
  ({ route := routeDecision.path
     route_reason := routeDecision.reason
     retrieval := retrieval
     answer := answer
     tool_decisions :=
       [{ tool_name := "router", rationale := routeDecision.reason,
          latency_ms := some 0 },
        { tool_name := "retrieval",
          rationale := "route=" ++ routeDecision.path, latency_ms := some 0 },
        { tool_name := "synthesis",
          rationale := "confidence=" ++ answer.confidence,
          latency_ms := some 0 }] }, store')

/-- Loop body of `_maybe_refine`: `fuel` is the number of remaining
attempts (`max(0, max_refinements)` at the top call), `attempt` the
1-based attempt counter.  Returns the current result, the accumulated
decision list and the store. -/
def refineGo (env : RetrievalEnv)
    (graphSummary : String → List String → String) (critic : CriticFn)
    (question : String) (userId userAccessToken : Option String)
    (rerankBackend rerankModel : String) (runtimeKey : Option String) :
    ℕ → ℕ → OrchestrationResult → List ToolDecision → RuntimeStore →
      OrchestrationResult × List ToolDecision × RuntimeStore
  | 0, _, current, decisions, store => (current, decisions, store)
  | fuel + 1, attempt, current, decisions, store =>
    if !(current.route = "document" || current.route = "graph") then
      (current,
        decisions ++
          [{ tool_name := "critic"
             rationale := "no refinement needed for current route"
             status := "skipped", attempt := attempt }], store)
    else
      let topScore :=
        match current.retrieval.hits with
        | [] => (0 : ℚ)
        | h :: _ => h.score
      let hitCount := current.retrieval.hits.length
      let critique := critic question current.route topScore hitCount
      if !critique.should_refine then
        (current,
          decisions ++
            [{ tool_name := "critic", rationale := critique.reason,
               latency_ms := some 0, attempt := attempt }], store)
      else
        let refineRoute :=
          if current.route = "document" then "hybrid" else "graph"
        let (refinedRetrieval, store') :=
          retrieve env store refineRoute question userId userAccessToken
            rerankBackend rerankModel runtimeKey
        let refinedAnswer := buildAnswer graphSummary question refinedRetrieval
        let decisions' :=
          decisions ++
            [{ tool_name := "critic", rationale := critique.reason,
               latency_ms := some 0, attempt := attempt },
             { tool_name := "retrieval_refine"
               rationale :=
                 "rerouted to " ++ refineRoute ++ " for stronger evidence"
               latency_ms := some 0, attempt := attempt }]
        refineGo env graphSummary critic question userId userAccessToken
          rerankBackend rerankModel runtimeKey fuel (attempt + 1)
          { route := refineRoute
            route_reason := "critic requested " ++ refineRoute ++ " refinement"
            retrieval := refinedRetrieval
            answer := refinedAnswer
            tool_decisions := decisions' }
          decisions' store'

/-- `_maybe_refine`. -/
def maybeRefine (env : RetrievalEnv)
    (graphSummary : String → List String → String) (critic : CriticFn)
    (question : String) (userId userAccessToken : Option String)
    (rerankBackend rerankModel : String) (runtimeKey : Option String)
    (maxRefinements : ℤ) (initial : OrchestrationResult)
    (store : RuntimeStore) : OrchestrationResult × RuntimeStore :=
  let (current, decisions, store') :=
    refineGo env graphSummary critic question userId userAccessToken
      rerankBackend rerankModel runtimeKey maxRefinements.toNat 1 initial
      initial.tool_decisions store
  ({ current with tool_decisions := decisions }, store')

/-- The blocked envelope of the planner budget gate. -/
def plannerBlockedAnswer (planLength : ℕ) (budget : ℤ) : AnswerEnvelope :=
  { answer :=
      "Execution stopped before retrieval because planner budget was exceeded. "
        ++ "Required " ++ toString planLength ++ " steps but budget is "
        ++ toString budget ++ "."
    confidence := "low"
    citations := []
    policy := "planner_budget_exceeded"
    action := "Increase PLANNER_MAX_STEPS or ask a simpler question." }

/-- `run_orchestration` with `use_langgraph=False` (the gate at the top is
common to both engines, and the LangGraph fallback path is this same
sequential driver). -/
def runOrchestration (env : RetrievalEnv)
    (graphSummary : String → List String → String) (critic : CriticFn)
    (store : RuntimeStore) (question : String)
    (userId userAccessToken : Option String) (maxRefinements : ℤ)
    (plannerMaxSteps : ℤ) (rerankBackend rerankModel : String)
    (runtimeKey : Option String) : OrchestrationResult × RuntimeStore :=
  let plannerRoute := selectRoute question
  let plan := plannedSteps plannerRoute.path
  let budget : ℤ := max 1 plannerMaxSteps
  if budget < (plan.length : ℤ) then
    ({ route := plannerRoute.path
       route_reason := plannerRoute.reason
       retrieval := { route := plannerRoute.path, hits := [] }
       answer := plannerBlockedAnswer plan.length budget
       tool_decisions :=
         [{ tool_name := "planner"
            rationale :=
              "budget blocked execution: planned_steps="
                ++ toString plan.length ++ ", max_steps=" ++ toString budget
            status := "blocked" }] }, store)
  else
    let (initial, store1) :=
      runWithoutLanggraph env graphSummary store question userId
        userAccessToken rerankBackend rerankModel runtimeKey
    let (refined, store2) :=
      maybeRefine env graphSummary critic question userId userAccessToken
        rerankBackend rerankModel runtimeKey maxRefinements initial store1
    (withPlannerDecision refined refined.route budget, store2)

/-! ## Ingestion worker (`src/lattice/app/ingestion/service.py`)

`parse_uploaded_file` and the embedding/vector-store providers are the
external collaborators; they appear as oracles in `IngestionEnv`
(`parse` returning `Except.error msg` models a raised `ParsingError`).
`persist_runtime_state` is a durable snapshot write and has no effect on
the in-memory state modelled here. -/

structure ParsedSegment where
  page : ℕ
  text : String
  deriving Repr, DecidableEq

structure IngestionEnv where
  parse : String → List ℕ → Except String (List ParsedSegment)
  embed_documents : List String → List (List ℚ)
  supabase_upsert : Option (DocumentChunk → Except String Unit)

def SUPPORTED_CONTENT_TYPES : List String :=
  ["text/plain", "text/markdown", "application/pdf",
   "application/vnd.openxmlformats-officedocument.wordprocessingml.document"]

/-- One row kept by the `_chunk_text` window: `(cursor, end, snippet)`. -/
def chunkTextRow (text : List Char) (cursor e : ℕ) :
    List (ℕ × ℕ × List Char) :=
  let snippet := stripWs ((text.drop cursor).take (e - cursor))
  if snippet.isEmpty then [] else [(cursor, e, snippet)]

/-- The `while cursor < len(text)` loop of `_chunk_text` with
`chunk_size=600`, `overlap=120`. -/
def chunkTextGo (text : List Char) (cursor : ℕ) : List (ℕ × ℕ × List Char) :=
  if _h : cursor < text.length then
    if he : min text.length (cursor + 600) = text.length then
      chunkTextRow text cursor (min text.length (cursor + 600))
    else
      chunkTextRow text cursor (min text.length (cursor + 600))
        ++ chunkTextGo text (min text.length (cursor + 600) - 120)
  else []
termination_by text.length - cursor
decreasing_by
  have hlt : cursor + 600 < text.length := by
    rcases Nat.lt_or_ge (cursor + 600) text.length with hcase | hcase
    · exact hcase
    · exact absurd (Nat.min_eq_left hcase) he
  have hmin : min text.length (cursor + 600) = cursor + 600 :=
    Nat.min_eq_right (Nat.le_of_lt hlt)
  simp only [hmin]
  omega

/-- `_chunk_text`. -/
def chunkText (text : String) : List (ℕ × ℕ × List Char) :=
  if (stripWs text.data).isEmpty then [] else chunkTextGo text.data 0

/-- The `(page, global_start, global_end, content)` rows of
`_build_chunks`, with the running global offset. -/
def chunkRowsGo : List ParsedSegment → ℕ → List (ℕ × ℕ × ℕ × String)
  | [], _ => []
  | seg :: rest, globalOffset =>
    ((chunkText seg.text).map fun r =>
      (seg.page, globalOffset + r.1, globalOffset + r.2.1,
        (⟨r.2.2⟩ : String)))
      ++ chunkRowsGo rest (globalOffset + seg.text.data.length + 1)

/-- `_build_chunks`. -/
def buildChunks (jobId userId filename : String)
    (segments : List ParsedSegment)
    (embedDocuments : List String → List (List ℚ)) : List DocumentChunk :=
  let rows := chunkRowsGo segments 0
  let contents := rows.map (·.2.2.2)
  let vectors := if contents.isEmpty then [] else embedDocuments contents
  rows.enum.map fun row =>
    { chunk_id := jobId ++ "-chunk-" ++ toString (row.1 + 1)
      content := row.2.2.2.2
      metadata :=
        { source := filename, page := row.2.1, offset_start := row.2.2.1,
          offset_end := row.2.2.2.1, user_id := userId }
      embedding := vectors.getD row.1 [] }

/-- `_set_stage` (the snapshot write is a no-op on the modelled state). -/
def setStage (store : RuntimeStore) (job : IngestionJob)
    (stage status : String) (errorMessage : Option String) :
    IngestionJob × RuntimeStore :=
  let nextJob :=
    { job with
        status := status
        stage := stage
        error_message := errorMessage }
  (nextJob,
    { store with
      ingestion_jobs := fun k =>
        if k = job.job_id then some nextJob else store.ingestion_jobs k })

/-- First exception raised by the `upsert_chunk` loop, if any. -/
def firstUpsertError (upsert : DocumentChunk → Except String Unit) :
    List DocumentChunk → Option String
  | [] => none
  | chunk :: rest =>
    match upsert chunk with
    | .ok _ => firstUpsertError upsert rest
    | .error e => some e

/-- The success tail of `process_ingestion_job`: extend the user's local
chunks, drop the queued upload, finalise the job record. -/
def finalizeIngestionJob (store : RuntimeStore) (processing : IngestionJob)
    (upload : QueuedUpload) (jobId : String) (chunks : List DocumentChunk) :
    IngestionJob × RuntimeStore :=
  let completed :=
    { processing with
        status := "success"
        stage := "completed"
        chunk_count := chunks.length
        error_message := none }
  (completed,
    { store with
      private_chunks_by_user := fun u =>
        if u = upload.user_id then
          store.private_chunks_by_user upload.user_id ++ chunks
        else store.private_chunks_by_user u
      queued_uploads := fun k =>
        if k = jobId then none else store.queued_uploads k
      ingestion_jobs := fun k =>
        if k = jobId then some completed else store.ingestion_jobs k })

/-- `process_ingestion_job`; the `ValueError("Unknown ingestion job")` on
a missing job or upload is the `Except.error`. -/
def processIngestionJob (env : IngestionEnv) (store : RuntimeStore)
    (jobId : String) : Except String (IngestionJob × RuntimeStore) :=
  match store.queued_uploads jobId, store.ingestion_jobs jobId with
  | some upload, some job =>
    let (processing, s1) := setStage store job "parsing" "processing" none
    if !(SUPPORTED_CONTENT_TYPES.contains upload.content_type) then
      let (failed, s2) :=
        setStage s1 processing "failed" "failed"
          (some "Unsupported file format. Use PDF, DOCX, MD, or TXT.")
      .ok (failed, s2)
    else
      match env.parse upload.content_type upload.file_bytes with
      | .error msg =>
        let (failed, s2) := setStage s1 processing "failed" "failed" (some msg)
        .ok (failed, s2)
      | .ok segments =>
        let (p2, s2) := setStage s1 processing "chunking" "processing" none
        let (p3, s3) := setStage s2 p2 "embedding" "processing" none
        let chunks :=
          buildChunks jobId upload.user_id upload.filename segments
            env.embed_documents
        match env.supabase_upsert with
        | some upsert =>
          if truthyOpt upload.user_access_token then
            let (p4, s4) := setStage s3 p3 "upserting" "processing" none
            match firstUpsertError upsert chunks with
            | some e =>
              let (failed, s5) :=
                setStage s4 p4 "failed" "failed"
                  (some ("Supabase upsert failed: " ++ e))
              .ok (failed, s5)
            | none => .ok (finalizeIngestionJob s4 p4 upload jobId chunks)
          else .ok (finalizeIngestionJob s3 p3 upload jobId chunks)
        | none => .ok (finalizeIngestionJob s3 p3 upload jobId chunks)
  | _, _ => .error "Unknown ingestion job"

/-! ## Retrieval-bundle invariants and supporting lemmas -/

/-- Hit sequence sorted by non-increasing score. -/
def sortedByScoreDesc (l : List RetrievalHit) : Prop :=
  l.Sorted (fun a b => b.score ≤ a.score)

/-- The invariant every bundle returned by `retrieve` satisfies. -/
structure BundleWF (b : RetrievalBundle) : Prop where
  degraded_iff : b.degraded = true ↔ b.backend_failures ≠ []
  sorted_nodup : b.route ≠ "aggregate" →
    sortedByScoreDesc b.hits ∧ (b.hits.map (·.source_id)).Nodup
  aggregate_shape : b.route = "aggregate" →
    ∃ documentCount graphEdgeCount,
      b.hits = [aggregateHit documentCount graphEdgeCount]
  unknown_route : b.route ≠ "graph" → b.route ≠ "document" →
    b.route ≠ "hybrid" → b.route ≠ "aggregate" →
    b.hits = [] ∧ b.degraded = false ∧ b.backend_failures = []
      ∧ b.rerank_strategy = "none"

/-- Every retrieval-cache entry is a well-formed bundle recorded under a
key naming its own route (cache entries are earlier `retrieve` outputs). -/
def CacheWF (store : RuntimeStore) : Prop :=
  ∀ route userStr semanticKey backend model b,
    store.retrieval_cache (mkCacheKey route userStr semanticKey backend model)
      = some b →
    BundleWF b ∧ b.route = route

/-! ## Concrete fixtures used to instantiate quantified theorems -/

/-- A degenerate `_graph_summary` stand-in for instantiations. -/
def trivialGraphSummary : String → List String → String := fun _ _ => ""

def emptyStore : RuntimeStore :=
  { ingestion_jobs := fun _ => none
    private_chunks_by_user := fun _ => []
    queued_uploads := fun _ => none
    query_embedding_cache := fun _ => none
    retrieval_cache := fun _ => none
    shared_demo_documents := []
    shared_graph_edges := [] }

/-- Seeded demo corpus: one demo document and one graph edge. -/
def demoStore : RuntimeStore :=
  { emptyStore with
      shared_demo_documents := [⟨"demo-1", "alpha beta report", "seed.md"⟩]
      shared_graph_edges := [⟨"Alpha", "DEPENDS_ON", "Beta", "manifest"⟩] }

/-- No remote backends configured, failing LLM reranker. -/
def plainEnv : RetrievalEnv :=
  { embed_query := fun _ => []
    supabase := none
    neo4j := some ⟨fun _ _ => .ok [], .ok 0⟩
    llm_rerank := fun _ _ => none }

/-- Raising graph backend plus an LLM reranker that assigns a weak score
to the fallback edge hit. -/
def degradedLlmEnv : RetrievalEnv :=
  { embed_query := fun _ => []
    supabase := none
    neo4j := some ⟨fun _ _ => .error "ConnectionError", .ok 0⟩
    llm_rerank := fun _ _ =>
      some [("graph-edge:alpha-depends-on-beta", 1/10)] }

def c9Env : IngestionEnv :=
  { parse := fun _ _ => .ok [⟨1, "hello world ingestion content"⟩]
    embed_documents := fun contents => contents.map (fun _ => [1, 2])
    supabase_upsert := none }

def c9BadStore : RuntimeStore :=
  { emptyStore with
      ingestion_jobs := fun k =>
        if k = "j1" then
          some ⟨"j1", "queued", "queued", "notes.zip", "application/zip",
            "u1", 0, none⟩
        else none
      queued_uploads := fun k =>
        if k = "j1" then
          some ⟨"j1", "u1", "notes.zip", "application/zip", [80, 75], none⟩
        else none }

def c9BadStage : Option String :=
  match processIngestionJob c9Env c9BadStore "j1" with
  | .ok p => some p.1.stage
  | .error _ => none

def c9BadQueuedAfter : Option Bool :=
  match processIngestionJob c9Env c9BadStore "j1" with
  | .ok p => some (p.2.queued_uploads "j1").isSome
  | .error _ => none

def c9GoodStore : RuntimeStore :=
  { emptyStore with
      ingestion_jobs := fun k =>
        if k = "j2" then
          some ⟨"j2", "queued", "queued", "notes.txt", "text/plain", "u1", 0,
            none⟩
        else none
      queued_uploads := fun k =>
        if k = "j2" then
          some ⟨"j2", "u1", "notes.txt", "text/plain", [104, 105], none⟩
        else none }

def c9GoodResultJob : IngestionJob :=
  match processIngestionJob c9Env c9GoodStore "j2" with
  | .ok p => p.1
  | .error _ => ⟨"", "", "", "", "", "", 0, none⟩

def c9GoodResultStore : RuntimeStore :=
  match processIngestionJob c9Env c9GoodStore "j2" with
  | .ok p => p.2
  | .error _ => c9GoodStore

/-- The value of
`(retrieve degradedLlmEnv demoStore "graph" "alpha depends beta" none none
"llm" "g" (some "key")).1`: the graph backend raised, the fallback edge
hit was LLM-reranked to score 0.1. -/
def c7Bundle : RetrievalBundle :=
  { route := "graph"
    hits := [⟨"graph-edge:alpha-depends-on-beta", 1/10,
      "Alpha DEPENDS_ON Beta. Evidence: manifest", "shared_graph",
      "Alpha-DEPENDS_ON-Beta"⟩]
    degraded := true
    backend_failures := ["neo4j:ConnectionError"]
    rerank_strategy := "llm_rerank_v1" }

/-- A weak-evidence document-routed initial result for the refinement
loop. -/
def c8Initial : OrchestrationResult :=
  { route := "document"
    route_reason := "question targets private files"
    retrieval := { route := "document", hits := [] }
    answer :=
      buildAnswer trivialGraphSummary "file alpha"
        { route := "document", hits := [] }
    tool_decisions := [] }

theorem mem_insertDesc {a h : RetrievalHit} {l : List RetrievalHit}
    (hmem : a ∈ insertDesc h l) : a = h ∨ a ∈ l := by
  induction l with
  | nil => simpa [insertDesc] using hmem
  | cons x xs ih =>
    by_cases hle : h.score ≤ x.score
    · simp only [insertDesc, if_pos hle, List.mem_cons] at hmem
      rcases hmem with rfl | hmem
      · exact Or.inr (List.mem_cons_self _ _)
      · rcases ih hmem with rfl | hmem
        · exact Or.inl rfl
        · exact Or.inr (List.mem_cons_of_mem _ hmem)
    · simp only [insertDesc, if_neg hle, List.mem_cons] at hmem
      rcases hmem with rfl | hmem
      · exact Or.inl rfl
      · exact Or.inr (by simpa using hmem)

theorem sorted_insertDesc {h : RetrievalHit} {l : List RetrievalHit}
    (hl : sortedByScoreDesc l) : sortedByScoreDesc (insertDesc h l) := by
  induction l with
  | nil => simp [insertDesc, sortedByScoreDesc]
  | cons x xs ih =>
    rw [sortedByScoreDesc, List.sorted_cons] at hl
    by_cases hle : h.score ≤ x.score
    · rw [sortedByScoreDesc, insertDesc, if_pos hle, List.sorted_cons]
      refine ⟨fun b hb => ?_, ih hl.2⟩
      rcases mem_insertDesc hb with rfl | hb
      · exact hle
      · exact hl.1 b hb
    · push_neg at hle
      rw [sortedByScoreDesc, insertDesc, if_neg (not_le_of_lt hle),
        List.sorted_cons]
      refine ⟨fun b hb => ?_, ?_⟩
      · rcases List.mem_cons.mp hb with rfl | hb
        · exact le_of_lt hle
        · exact le_trans (hl.1 b hb) (le_of_lt hle)
      · rw [List.sorted_cons]
        exact hl

theorem sortDescStable_sorted (l : List RetrievalHit) :
    sortedByScoreDesc (sortDescStable l) := by
  suffices hgen : ∀ acc, sortedByScoreDesc acc →
      sortedByScoreDesc (l.foldl (fun acc h => insertDesc h acc) acc) by
    exact hgen [] (by simp [sortedByScoreDesc])
  induction l with
  | nil => intro acc hacc; simpa using hacc
  | cons x xs ih =>
    intro acc hacc
    exact ih _ (sorted_insertDesc hacc)

theorem dedupeByIdGo_sublist (seen : List String) (l : List RetrievalHit) :
    (dedupeByIdGo seen l).Sublist l := by
  induction l generalizing seen with
  | nil => simp [dedupeByIdGo]
  | cons h t ih =>
    by_cases hc : h.source_id ∈ seen
    · rw [dedupeByIdGo, if_pos hc]
      exact (ih seen).trans (List.sublist_cons_self h t)
    · rw [dedupeByIdGo, if_neg hc]
      exact (ih (h.source_id :: seen)).cons₂ h

theorem dedupeByIdGo_spec (l : List RetrievalHit) :
    ∀ seen : List String,
      ((dedupeByIdGo seen l).map (·.source_id)).Nodup ∧
        ∀ a ∈ dedupeByIdGo seen l, a.source_id ∉ seen := by
  induction l with
  | nil => intro seen; simp [dedupeByIdGo]
  | cons h t ih =>
    intro seen
    by_cases hc : h.source_id ∈ seen
    · rw [dedupeByIdGo, if_pos hc]
      exact ih seen
    · rw [dedupeByIdGo, if_neg hc]
      obtain ⟨ihnodup, ihseen⟩ := ih (h.source_id :: seen)
      refine ⟨?_, ?_⟩
      · rw [List.map_cons, List.nodup_cons]
        refine ⟨?_, ihnodup⟩
        intro hmem
        obtain ⟨a, hamem, haid⟩ := List.mem_map.mp hmem
        exact ihseen a hamem (by simp [haid])
      · intro a hamem
        rcases List.mem_cons.mp hamem with rfl | hamem
        · exact hc
        · intro hmemseen
          exact ihseen a hamem (List.mem_cons_of_mem _ hmemseen)

/-- Sort-dedupe-truncate pipelines produce bundles whose hits are sorted
by descending score with pairwise-distinct source ids. -/
theorem processed_sorted_nodup (l : List RetrievalHit) (limit : ℕ) :
    sortedByScoreDesc ((dedupeById (sortDescStable l)).take limit) ∧
      (((dedupeById (sortDescStable l)).take limit).map
        (·.source_id)).Nodup := by
  constructor
  · have hsorted := sortDescStable_sorted l
    have hsub : List.Sublist ((dedupeById (sortDescStable l)).take limit)
        (sortDescStable l) :=
      (List.take_sublist _ _).trans (dedupeByIdGo_sublist [] _)
    exact List.Pairwise.sublist hsub hsorted
  · have hnodup := (dedupeByIdGo_spec (sortDescStable l) []).1
    have hsub : List.Sublist
        (((dedupeById (sortDescStable l)).take limit).map (·.source_id))
        ((dedupeById (sortDescStable l)).map (·.source_id)) := by
      rw [List.map_take]
      exact List.take_sublist _ _
    exact List.Nodup.sublist hsub hnodup

theorem rerankHits_sorted_nodup (env : RetrievalEnv) (query : String)
    (hits : List RetrievalHit) (limit : ℕ) (backend : String)
    (runtimeKey : Option String) (model : String) :
    sortedByScoreDesc
        (rerankHits env query hits limit backend runtimeKey model).1 ∧
      ((rerankHits env query hits limit backend runtimeKey model).1.map
        (·.source_id)).Nodup := by
  have hempty : sortedByScoreDesc ([] : List RetrievalHit) ∧
      (([] : List RetrievalHit).map (·.source_id)).Nodup := by
    simp [sortedByScoreDesc]
  have hheuristic : ∀ lim, sortedByScoreDesc (heuristicRerankHits query hits lim)
      ∧ ((heuristicRerankHits query hits lim).map (·.source_id)).Nodup := by
    intro lim
    rw [heuristicRerankHits]
    split
    · exact hempty
    · exact processed_sorted_nodup _ _
  have hllm : ∀ lim, sortedByScoreDesc (llmRerankHits env query hits lim) ∧
      ((llmRerankHits env query hits lim).map (·.source_id)).Nodup := by
    intro lim
    rw [llmRerankHits]
    split
    · exact hempty
    · split
      · exact hempty
      · dsimp only
        split
        · exact hempty
        · exact processed_sorted_nodup _ _
  rw [rerankHits]
  split
  · dsimp only
    split
    · exact hllm limit
    · exact hheuristic limit
  · exact hheuristic limit

theorem retrieve_cache_hit (env : RetrievalEnv) (store : RuntimeStore)
    (route query : String) (userId userAccessToken : Option String)
    (rerankBackend rerankModel : String) (runtimeKey : Option String)
    (b : RetrievalBundle)
    (h : store.retrieval_cache
      (mkCacheKey route (pyStr userId) (semanticQueryKey query) rerankBackend
        rerankModel) = some b) :
    retrieve env store route query userId userAccessToken rerankBackend
      rerankModel runtimeKey = (b, store) := by
  unfold retrieve
  dsimp only
  rw [h]

theorem retrieve_cache_miss (env : RetrievalEnv) (store : RuntimeStore)
    (route query : String) (userId userAccessToken : Option String)
    (rerankBackend rerankModel : String) (runtimeKey : Option String)
    (h : store.retrieval_cache
      (mkCacheKey route (pyStr userId) (semanticQueryKey query) rerankBackend
        rerankModel) = none) :
    retrieve env store route query userId userAccessToken rerankBackend
      rerankModel runtimeKey =
      ((retrieveFresh env store route query userId userAccessToken
          rerankBackend rerankModel runtimeKey).1,
        writeRetrievalCache
          (retrieveFresh env store route query userId userAccessToken
            rerankBackend rerankModel runtimeKey).2
          (mkCacheKey route (pyStr userId) (semanticQueryKey query)
            rerankBackend rerankModel)
          (retrieveFresh env store route query userId userAccessToken
            rerankBackend rerankModel runtimeKey).1) := by
  unfold retrieve
  dsimp only
  rw [h]

/-- After any `retrieve` call, the cache maps the call's key to the very
bundle that was returned. -/
theorem retrieve_cache_self (env : RetrievalEnv) (store : RuntimeStore)
    (route query : String) (userId userAccessToken : Option String)
    (rerankBackend rerankModel : String) (runtimeKey : Option String) :
    (retrieve env store route query userId userAccessToken rerankBackend
        rerankModel runtimeKey).2.retrieval_cache
      (mkCacheKey route (pyStr userId) (semanticQueryKey query) rerankBackend
        rerankModel)
    = some (retrieve env store route query userId userAccessToken
        rerankBackend rerankModel runtimeKey).1 := by
  cases h : store.retrieval_cache
      (mkCacheKey route (pyStr userId) (semanticQueryKey query) rerankBackend
        rerankModel) with
  | some b =>
    rw [retrieve_cache_hit env store route query userId userAccessToken
      rerankBackend rerankModel runtimeKey b h]
    exact h
  | none =>
    rw [retrieve_cache_miss env store route query userId userAccessToken
      rerankBackend rerankModel runtimeKey h]
    simp [writeRetrievalCache]

theorem not_isEmpty_iff {α : Type} (l : List α) :
    ((!l.isEmpty) = true ↔ l ≠ []) := by
  cases l <;> simp

/-- Freshly computed bundles are well formed and carry the requested
route. -/
theorem retrieveFresh_wf (env : RetrievalEnv) (store : RuntimeStore)
    (route query : String) (userId userAccessToken : Option String)
    (rerankBackend rerankModel : String) (runtimeKey : Option String) :
    BundleWF (retrieveFresh env store route query userId userAccessToken
        rerankBackend rerankModel runtimeKey).1 ∧
      (retrieveFresh env store route query userId userAccessToken
        rerankBackend rerankModel runtimeKey).1.route = route := by
  unfold retrieveFresh
  by_cases hg : route = "graph"
  · subst hg
    rw [if_pos rfl]
    rcases hgh : graphHits env store query 8 with ⟨ghits, gfail⟩
    rcases hrr : rerankHits env query ghits 5 rerankBackend runtimeKey
      rerankModel with ⟨reranked, strategy⟩
    have hsn := rerankHits_sorted_nodup env query ghits 5 rerankBackend
      runtimeKey rerankModel
    rw [hrr] at hsn
    simp only [hgh, hrr]
    refine ⟨⟨?_, ?_, ?_, ?_⟩, by simp⟩
    · exact not_isEmpty_iff gfail
    · intro _; exact hsn
    · intro hag; simp at hag
    · intro h1 _ _ _; exact absurd rfl h1
  · rw [if_neg hg]
    by_cases hd : route = "document"
    · subst hd
      rw [if_pos rfl]
      rcases hdh : documentHits env store query userId userAccessToken 8 with
        ⟨dhits, dfail, store1⟩
      rcases hrr : rerankHits env query dhits 5 rerankBackend runtimeKey
        rerankModel with ⟨reranked, strategy⟩
      have hsn := rerankHits_sorted_nodup env query dhits 5 rerankBackend
        runtimeKey rerankModel
      rw [hrr] at hsn
      simp only [hdh, hrr]
      refine ⟨⟨?_, ?_, ?_, ?_⟩, by simp⟩
      · exact not_isEmpty_iff dfail
      · intro _; exact hsn
      · intro hag; simp at hag
      · intro _ h2 _ _; exact absurd rfl h2
    · rw [if_neg hd]
      by_cases hh : route = "hybrid"
      · subst hh
        rw [if_pos rfl]
        rcases hdh : documentHits env store query userId userAccessToken 10
          with ⟨dhits, dfail, store1⟩
        rcases hgh : graphHits env store1 query 10 with ⟨ghits, gfail⟩
        rcases hrr : rerankHits env query (dhits ++ ghits) 6 rerankBackend
          runtimeKey rerankModel with ⟨reranked, strategy⟩
        have hsn := rerankHits_sorted_nodup env query (dhits ++ ghits) 6
          rerankBackend runtimeKey rerankModel
        rw [hrr] at hsn
        simp only [hdh, hgh, hrr]
        refine ⟨⟨?_, ?_, ?_, ?_⟩, by simp⟩
        · exact not_isEmpty_iff (dfail ++ gfail)
        · intro _; exact hsn
        · intro hag; simp at hag
        · intro _ _ h3 _; exact absurd rfl h3
      · rw [if_neg hh]
        by_cases ha : route = "aggregate"
        · subst ha
          rw [if_pos rfl]
          rcases hdc : countDocuments env store userId userAccessToken with
            ⟨documentCount, dfail⟩
          rcases hgc : countGraphEdges env store with ⟨graphEdgeCount, gfail⟩
          simp only [hdc, hgc]
          refine ⟨⟨?_, ?_, ?_, ?_⟩, by simp⟩
          · exact not_isEmpty_iff (dfail ++ gfail)
          · intro hne; exact absurd rfl hne
          · intro _; exact ⟨documentCount, graphEdgeCount, rfl⟩
          · intro _ _ _ h4; exact absurd rfl h4
        · rw [if_neg ha]
          refine ⟨⟨?_, ?_, ?_, ?_⟩, rfl⟩
          · simp
          · intro _
            constructor
            · simp [sortedByScoreDesc]
            · simp
          · intro hag; exact absurd hag ha
          · intro _ _ _ _; exact ⟨rfl, rfl, rfl, rfl⟩

/-- Every bundle `retrieve` returns — cached or fresh — is well formed
and carries the requested route, provided the cache held only earlier
`retrieve` outputs. -/
theorem retrieve_wf (env : RetrievalEnv) (store : RuntimeStore)
    (route query : String) (userId userAccessToken : Option String)
    (rerankBackend rerankModel : String) (runtimeKey : Option String)
    (hwf : CacheWF store) :
    BundleWF (retrieve env store route query userId userAccessToken
        rerankBackend rerankModel runtimeKey).1 ∧
      (retrieve env store route query userId userAccessToken rerankBackend
        rerankModel runtimeKey).1.route = route := by
  cases h : store.retrieval_cache
      (mkCacheKey route (pyStr userId) (semanticQueryKey query) rerankBackend
        rerankModel) with
  | some b =>
    rw [retrieve_cache_hit env store route query userId userAccessToken
      rerankBackend rerankModel runtimeKey b h]
    exact hwf route (pyStr userId) (semanticQueryKey query) rerankBackend
      rerankModel b h
  | none =>
    rw [retrieve_cache_miss env store route query userId userAccessToken
      rerankBackend rerankModel runtimeKey h]
    exact retrieveFresh_wf env store route query userId userAccessToken
      rerankBackend rerankModel runtimeKey

/-! ### Cache-key disjointness and invariance of `CacheWF`

Cache keys are colon-joined; for the key fields the system actually uses
(routes, user ids, semantic keys, rerank settings without colons) the key
is injective, so `retrieve` preserves `CacheWF` — the hypothesis of the
bundle-invariant theorems holds in every reachable state. -/

theorem string_data_inj {a b : String} (h : a.data = b.data) : a = b := by
  cases a; cases b; simp only at h; rw [h]

theorem mem_of_mem_stripWs {c : Char} {s : List Char}
    (h : c ∈ stripWs s) : c ∈ s := by
  unfold stripWs at h
  rw [List.mem_reverse] at h
  have h1 := List.dropWhile_sublist (l := (s.dropWhile Char.isWhitespace).reverse)
    (p := Char.isWhitespace)
  have h2 := h1.mem h
  rw [List.mem_reverse] at h2
  exact (List.dropWhile_sublist (l := s) (p := Char.isWhitespace)).mem h2

theorem mem_of_mem_splitWsGo {t : List Char} {c : Char} :
    ∀ {s acc : List Char}, t ∈ splitWsGo s acc → c ∈ t → c ∈ s ∨ c ∈ acc := by
  intro s
  induction s with
  | nil =>
    intro acc ht hc
    rw [splitWsGo] at ht
    split at ht
    · simp at ht
    · rw [List.mem_singleton] at ht
      subst ht
      exact Or.inr (List.mem_reverse.mp hc)
  | cons c0 s ih =>
    intro acc ht hc
    rw [splitWsGo] at ht
    split at ht
    · split at ht
      · rcases ih ht hc with h | h
        · exact Or.inl (List.mem_cons_of_mem _ h)
        · simp at h
      · rcases List.mem_cons.mp ht with rfl | ht
        · exact Or.inr (List.mem_reverse.mp hc)
        · rcases ih ht hc with h | h
          · exact Or.inl (List.mem_cons_of_mem _ h)
          · simp at h
    · rcases ih ht hc with h | h
      · exact Or.inl (List.mem_cons_of_mem _ h)
      · rcases List.mem_cons.mp h with rfl | h
        · exact Or.inl (List.mem_cons_self _ _)
        · exact Or.inr h

theorem mem_of_mem_insertLex {t x : List Char} {l : List (List Char)}
    (h : t ∈ insertLex x l) : t = x ∨ t ∈ l := by
  induction l with
  | nil => simpa [insertLex] using h
  | cons y ys ih =>
    rw [insertLex] at h
    split at h
    · rcases List.mem_cons.mp h with rfl | h
      · exact Or.inl rfl
      · exact Or.inr h
    · rcases List.mem_cons.mp h with rfl | h
      · exact Or.inr (List.mem_cons_self _ _)
      · rcases ih h with rfl | h
        · exact Or.inl rfl
        · exact Or.inr (List.mem_cons_of_mem _ h)

theorem mem_of_mem_sortLex {t : List Char} {l : List (List Char)}
    (h : t ∈ sortLex l) : t ∈ l := by
  induction l with
  | nil => simp [sortLex] at h
  | cons x xs ih =>
    rw [sortLex] at h
    rcases mem_of_mem_insertLex h with rfl | h
    · exact List.mem_cons_self _ _
    · exact List.mem_cons_of_mem _ (ih h)

theorem mem_of_mem_joinSpace {c : Char} :
    ∀ {ts : List (List Char)}, c ∈ joinSpace ts →
      c = ' ' ∨ ∃ t ∈ ts, c ∈ t := by
  intro ts
  induction ts with
  | nil => intro h; simp [joinSpace] at h
  | cons t rest ih =>
    intro h
    cases rest with
    | nil =>
      rw [joinSpace] at h
      exact Or.inr ⟨t, List.mem_singleton_self t, h⟩
    | cons t2 rest2 =>
      rw [joinSpace] at h
      rcases List.mem_append.mp h with h | h
      · exact Or.inr ⟨t, List.mem_cons_self _ _, h⟩
      · rcases List.mem_cons.mp h with rfl | h
        · exact Or.inl rfl
        · rcases ih h with h | ⟨t', ht', hc⟩
          · exact Or.inl h
          · exact Or.inr ⟨t', List.mem_cons_of_mem _ ht', hc⟩

/-- The semantic key never contains a colon: its characters come from the
normalisation, which keeps only `[a-z0-9]` and whitespace and maps
everything else to a space. -/
theorem semanticQueryKey_no_colon (query : String) :
    ':' ∉ (semanticQueryKey query).data := by
  unfold semanticQueryKey
  have hnorm : ∀ c ∈ (lowerStr query).data.map (fun c =>
      if ('a' ≤ c && c ≤ 'z') || ('0' ≤ c && c ≤ '9') || c.isWhitespace
      then c else ' '), c ≠ ':' := by
    intro c hc
    obtain ⟨c0, _, hc0⟩ := List.mem_map.mp hc
    intro heq
    subst heq
    split at hc0
    · subst hc0
      simp_all
    · simp at hc0
  dsimp only
  split
  · intro hmem
    exact hnorm ':' (mem_of_mem_stripWs hmem) rfl
  · intro hmem
    rcases mem_of_mem_joinSpace hmem with h | ⟨t, ht, hc⟩
    · simp at h
    · have ht' := mem_of_mem_sortLex ht
      have ht'' := List.mem_filter.mp ht'
      rcases mem_of_mem_splitWsGo ht''.1 hc with h | h
      · exact hnorm ':' h rfl
      · simp at h

/-- Splitting a colon-joined pair whose first components are colon-free. -/
theorem append_colon_inj : ∀ {a b r s : List Char}, ':' ∉ a → ':' ∉ b →
    a ++ ':' :: r = b ++ ':' :: s → a = b ∧ r = s := by
  intro a
  induction a with
  | nil =>
    intro b r s _ hb h
    cases b with
    | nil => simpa using h
    | cons c bs =>
      simp only [List.nil_append, List.cons_append, List.cons.injEq] at h
      exact absurd (h.1 ▸ List.mem_cons_self c bs)
        (by simp [← h.1] at hb)
  | cons c as_ ih =>
    intro b r s ha hb h
    cases b with
    | nil =>
      simp only [List.nil_append, List.cons_append, List.cons.injEq] at h
      exact absurd (h.1 ▸ List.mem_cons_self c as_) (by simp [h.1] at ha ⊢)
    | cons d bs =>
      simp only [List.cons_append, List.cons.injEq] at h
      obtain ⟨rfl, h2⟩ := h
      obtain ⟨hab, hrs⟩ := ih (fun hm => ha (List.mem_cons_of_mem _ hm))
        (fun hm => hb (List.mem_cons_of_mem _ hm)) h2
      exact ⟨by rw [hab], hrs⟩

theorem mkCacheKey_data (r u s be mo : String) :
    (mkCacheKey r u s be mo).data
      = r.data ++ ':' :: (u.data ++ ':' :: (s.data ++ ':'
          :: (be.data ++ ':' :: mo.data))) := by
  unfold mkCacheKey
  simp [String.data_append]

theorem colon_count_mkCacheKey (r u s be mo : String) (hr : ':' ∉ r.data)
    (hu : ':' ∉ u.data) (hs : ':' ∉ s.data) (hbe : ':' ∉ be.data)
    (hmo : ':' ∉ mo.data) :
    (mkCacheKey r u s be mo).data.count ':' = 4 := by
  rw [mkCacheKey_data]
  simp [List.count_append, List.count_cons, List.count_eq_zero.mpr, hr, hu,
    hs, hbe, hmo]

/-- With colon-free fields on one side, the key determines every parse:
the other side's fields can hold no colons either (the key has exactly
four), and the split points are forced. -/
theorem mkCacheKey_inj {r u s be mo r' u' s' be' mo' : String}
    (hr : ':' ∉ r.data) (hu : ':' ∉ u.data) (hs : ':' ∉ s.data)
    (hbe : ':' ∉ be.data) (hmo : ':' ∉ mo.data)
    (h : mkCacheKey r' u' s' be' mo' = mkCacheKey r u s be mo) :
    r' = r ∧ u' = u ∧ s' = s ∧ be' = be ∧ mo' = mo := by
  have hdata := congrArg String.data h
  rw [mkCacheKey_data, mkCacheKey_data] at hdata
  have hcount : (mkCacheKey r' u' s' be' mo').data.count ':' = 4 := by
    rw [h]
    exact colon_count_mkCacheKey r u s be mo hr hu hs hbe hmo
  rw [mkCacheKey_data] at hcount
  simp only [List.count_append, List.count_cons_self,
    List.count_cons] at hcount
  have hr' : ':' ∉ r'.data := List.count_eq_zero.mp (by omega)
  have hu' : ':' ∉ u'.data := List.count_eq_zero.mp (by omega)
  have hs' : ':' ∉ s'.data := List.count_eq_zero.mp (by omega)
  have hbe' : ':' ∉ be'.data := List.count_eq_zero.mp (by omega)
  obtain ⟨h1, hrest⟩ := append_colon_inj hr' hr hdata
  obtain ⟨h2, hrest⟩ := append_colon_inj hu' hu hrest
  obtain ⟨h3, hrest⟩ := append_colon_inj hs' hs hrest
  obtain ⟨h4, h5⟩ := append_colon_inj hbe' hbe hrest
  exact ⟨string_data_inj h1, string_data_inj h2, string_data_inj h3,
    string_data_inj h4, string_data_inj h5⟩

/-- The query-embedding cache write leaves the retrieval cache alone. -/
theorem queryEmbedding_retrieval_cache (env : RetrievalEnv)
    (store : RuntimeStore) (query : String) :
    (queryEmbedding env store query).2.retrieval_cache
      = store.retrieval_cache := by
  unfold queryEmbedding
  dsimp only
  split <;> rfl

theorem documentHits_retrieval_cache (env : RetrievalEnv)
    (store : RuntimeStore) (query : String)
    (userId userAccessToken : Option String) (limit : ℕ) :
    (documentHits env store query userId userAccessToken
      limit).2.2.retrieval_cache = store.retrieval_cache := by
  unfold documentHits
  rcases env.supabase with _ | supabase
  · rfl
  · dsimp only
    split
    · rcases hq : queryEmbedding env store query with ⟨vector, store'⟩
      have hq' : store'.retrieval_cache = store.retrieval_cache := by
        have := queryEmbedding_retrieval_cache env store query
        rw [hq] at this
        exact this
      rcases supabase.match_chunks vector limit with exc | hits <;> dsimp only
      · exact hq'
      · split <;> exact hq'
    · rfl

/-- The per-route fresh computation never touches the retrieval cache
(only the final write in `retrieve` does). -/
theorem retrieveFresh_retrieval_cache (env : RetrievalEnv)
    (store : RuntimeStore) (route query : String)
    (userId userAccessToken : Option String)
    (rerankBackend rerankModel : String) (runtimeKey : Option String) :
    (retrieveFresh env store route query userId userAccessToken
      rerankBackend rerankModel runtimeKey).2.retrieval_cache
      = store.retrieval_cache := by
  unfold retrieveFresh
  split
  · rfl
  · split
    · rcases hd : documentHits env store query userId userAccessToken 8 with
        ⟨dhits, dfail, store1⟩
      have hd' := documentHits_retrieval_cache env store query userId
        userAccessToken 8
      rw [hd] at hd'
      exact hd'
    · split
      · rcases hd : documentHits env store query userId userAccessToken 10
          with ⟨dhits, dfail, store1⟩
        have hd' := documentHits_retrieval_cache env store query userId
          userAccessToken 10
        rw [hd] at hd'
        exact hd'
      · split <;> rfl

/-- `retrieve` preserves cache well-formedness whenever its key fields are
colon-free — as they are for every route, user id, semantic key and
rerank setting the system produces. -/
theorem retrieve_preserves_cacheWF (env : RetrievalEnv)
    (store : RuntimeStore) (route query : String)
    (userId userAccessToken : Option String)
    (rerankBackend rerankModel : String) (runtimeKey : Option String)
    (hwf : CacheWF store) (hr : ':' ∉ route.data)
    (hu : ':' ∉ (pyStr userId).data) (hbe : ':' ∉ rerankBackend.data)
    (hmo : ':' ∉ rerankModel.data) :
    CacheWF (retrieve env store route query userId userAccessToken
      rerankBackend rerankModel runtimeKey).2 := by
  cases hcache : store.retrieval_cache
      (mkCacheKey route (pyStr userId) (semanticQueryKey query) rerankBackend
        rerankModel) with
  | some b =>
    rw [retrieve_cache_hit env store route query userId userAccessToken
      rerankBackend rerankModel runtimeKey b hcache]
    exact hwf
  | none =>
    rw [retrieve_cache_miss env store route query userId userAccessToken
      rerankBackend rerankModel runtimeKey hcache]
    intro r' u' s' be' mo' b hb'
    simp only [writeRetrievalCache, retrieveFresh_retrieval_cache] at hb'
    by_cases hk : mkCacheKey r' u' s' be' mo'
        = mkCacheKey route (pyStr userId) (semanticQueryKey query)
          rerankBackend rerankModel
    · rw [if_pos hk] at hb'
      have hbeq := Option.some.inj hb'
      obtain ⟨hr', _, _, _, _⟩ :=
        mkCacheKey_inj hr hu (semanticQueryKey_no_colon query) hbe hmo hk
      obtain ⟨hwfb, hroute⟩ := retrieveFresh_wf env store route query userId
        userAccessToken rerankBackend rerankModel runtimeKey
      exact hbeq ▸ ⟨hwfb, by rw [hroute, hr']⟩
    · rw [if_neg hk] at hb'
      exact hwf r' u' s' be' mo' b hb'

end Lattice

namespace Lattice

/-- C1: the router classifies with the fixed priority order of the claim. -/
theorem select_route_matches_claim_priority (query : String) :
    (selectRoute query).path = claimRoutePath query := by
  unfold selectRoute claimRoutePath
  cases hc : containsAnyHint (lowerStr query) COUNT_HINTS <;>
    cases hg : isGraphDomainQuestion (lowerStr query) <;>
      cases hd : containsAnyHint (lowerStr query) DOC_HINTS <;> simp [hc, hg, hd]

/-- Witness for C1's quantified statement at a concrete question. -/
theorem select_route_matches_claim_priority_witness :
    (selectRoute "Count the graph files").path
      = claimRoutePath "Count the graph files" :=
  select_route_matches_claim_priority "Count the graph files"

theorem demoStore_cacheWF : CacheWF demoStore := by
  intro route userStr semanticKey backend model b h
  simp [demoStore, emptyStore] at h

/-- C3: two queries with the same semantic key, same route, user, rerank
backend and rerank model hit the same cache slot, so the second `retrieve`
returns the first call's bundle verbatim and leaves the store untouched —
for any backend/oracle behaviour on either call. -/
theorem retrieve_semantic_cache_determinism (env env' : RetrievalEnv)
    (store : RuntimeStore) (route q1 q2 : String)
    (userId tok tok' : Option String) (rerankBackend rerankModel : String)
    (rk rk' : Option String)
    (hsem : semanticQueryKey q1 = semanticQueryKey q2) :
    retrieve env' (retrieve env store route q1 userId tok rerankBackend
        rerankModel rk).2 route q2 userId tok' rerankBackend rerankModel rk'
      = ((retrieve env store route q1 userId tok rerankBackend rerankModel
            rk).1,
         (retrieve env store route q1 userId tok rerankBackend rerankModel
            rk).2) := by
  apply retrieve_cache_hit
  rw [← hsem]
  exact retrieve_cache_self env store route q1 userId tok rerankBackend
    rerankModel rk

/-- Witness for C3 on two concrete paraphrases. -/
theorem retrieve_semantic_cache_determinism_witness :
    semanticQueryKey "Count The Files" = semanticQueryKey "files count the" ∧
      retrieve plainEnv (retrieve plainEnv demoStore "document"
          "Count The Files" none none "heuristic" "g" none).2 "document"
          "files count the" none none "heuristic" "g" none
        = ((retrieve plainEnv demoStore "document" "Count The Files" none none
              "heuristic" "g" none).1,
           (retrieve plainEnv demoStore "document" "Count The Files" none none
              "heuristic" "g" none).2) :=
  ⟨by decide,
    retrieve_semantic_cache_determinism plainEnv plainEnv demoStore "document"
      "Count The Files" "files count the" none none none "heuristic" "g" none
      none (by decide)⟩

/-- C4: a bundle returned by `retrieve` is degraded exactly when its
backend-failure tag list is non-empty. -/
theorem retrieve_degraded_iff_failures (env : RetrievalEnv)
    (store : RuntimeStore) (route query : String)
    (userId userAccessToken : Option String)
    (rerankBackend rerankModel : String) (runtimeKey : Option String)
    (hwf : CacheWF store) :
    ((retrieve env store route query userId userAccessToken rerankBackend
        rerankModel runtimeKey).1.degraded = true
      ↔ (retrieve env store route query userId userAccessToken rerankBackend
          rerankModel runtimeKey).1.backend_failures ≠ []) :=
  (retrieve_wf env store route query userId userAccessToken rerankBackend
    rerankModel runtimeKey hwf).1.degraded_iff

/-- Witness for C4 at a concrete state and query. -/
theorem retrieve_degraded_iff_failures_witness :
    CacheWF demoStore ∧
      ((retrieve plainEnv demoStore "graph" "alpha depends beta" none none
          "heuristic" "g" none).1.degraded = true
        ↔ (retrieve plainEnv demoStore "graph" "alpha depends beta" none none
            "heuristic" "g" none).1.backend_failures ≠ []) :=
  ⟨demoStore_cacheWF,
    retrieve_degraded_iff_failures plainEnv demoStore "graph"
      "alpha depends beta" none none "heuristic" "g" none demoStore_cacheWF⟩

/-- C5: on every route other than aggregate, the hits of a bundle returned
by `retrieve` are sorted by non-increasing score and no two hits share a
source id. -/
theorem retrieve_nonaggregate_sorted_unique (env : RetrievalEnv)
    (store : RuntimeStore) (route query : String)
    (userId userAccessToken : Option String)
    (rerankBackend rerankModel : String) (runtimeKey : Option String)
    (hwf : CacheWF store) (hroute : route ≠ "aggregate") :
    sortedByScoreDesc (retrieve env store route query userId userAccessToken
        rerankBackend rerankModel runtimeKey).1.hits ∧
      ((retrieve env store route query userId userAccessToken rerankBackend
        rerankModel runtimeKey).1.hits.map (·.source_id)).Nodup := by
  obtain ⟨hb, hr⟩ := retrieve_wf env store route query userId userAccessToken
    rerankBackend rerankModel runtimeKey hwf
  exact hb.sorted_nodup (by rw [hr]; exact hroute)

/-- Witness for C5 at a concrete state and query. -/
theorem retrieve_nonaggregate_sorted_unique_witness :
    CacheWF demoStore ∧ ("hybrid" ≠ "aggregate") ∧
      (sortedByScoreDesc (retrieve plainEnv demoStore "hybrid"
          "alpha depends beta" none none "heuristic" "g" none).1.hits ∧
        ((retrieve plainEnv demoStore "hybrid" "alpha depends beta" none none
          "heuristic" "g" none).1.hits.map (·.source_id)).Nodup) :=
  ⟨demoStore_cacheWF, by decide,
    retrieve_nonaggregate_sorted_unique plainEnv demoStore "hybrid"
      "alpha depends beta" none none "heuristic" "g" none demoStore_cacheWF
      (by decide)⟩

/-- C6: an aggregate-routed retrieval returns exactly one synthetic hit
with score 1, location `aggregate://counts` and a content string carrying
`documents=N, graph_edges=M, total=N+M`; on a cache miss `N` and `M` are
exactly the document and graph-edge counts (remote when available,
otherwise local). -/
theorem retrieve_aggregate_counts (env : RetrievalEnv) (store : RuntimeStore)
    (query : String) (userId userAccessToken : Option String)
    (rerankBackend rerankModel : String) (runtimeKey : Option String)
    (hwf : CacheWF store) :
    (∃ documentCount graphEdgeCount,
      (retrieve env store "aggregate" query userId userAccessToken
          rerankBackend rerankModel runtimeKey).1.hits
        = [aggregateHit documentCount graphEdgeCount]
      ∧ (aggregateHit documentCount graphEdgeCount).score = 1
      ∧ (aggregateHit documentCount graphEdgeCount).location
          = "aggregate://counts"
      ∧ (aggregateHit documentCount graphEdgeCount).content
          = "Aggregate count: documents=" ++ toString documentCount
            ++ ", graph_edges=" ++ toString graphEdgeCount
            ++ ", total=" ++ toString (documentCount + graphEdgeCount))
    ∧ (store.retrieval_cache
        (mkCacheKey "aggregate" (pyStr userId) (semanticQueryKey query)
          rerankBackend rerankModel) = none →
      (retrieve env store "aggregate" query userId userAccessToken
          rerankBackend rerankModel runtimeKey).1.hits
        = [aggregateHit (countDocuments env store userId userAccessToken).1
            (countGraphEdges env store).1]) := by
  constructor
  · obtain ⟨hb, hr⟩ := retrieve_wf env store "aggregate" query userId
      userAccessToken rerankBackend rerankModel runtimeKey hwf
    obtain ⟨documentCount, graphEdgeCount, hshape⟩ := hb.aggregate_shape hr
    exact ⟨documentCount, graphEdgeCount, hshape, rfl, rfl, rfl⟩
  · intro hmiss
    rw [retrieve_cache_miss env store "aggregate" query userId userAccessToken
      rerankBackend rerankModel runtimeKey hmiss]
    unfold retrieveFresh
    rw [if_neg (by decide), if_neg (by decide), if_neg (by decide),
      if_pos rfl]

/-- Witness for C6 at a concrete state and query. -/
theorem retrieve_aggregate_counts_witness :
    CacheWF demoStore ∧
      (∃ documentCount graphEdgeCount,
        (retrieve plainEnv demoStore "aggregate" "count everything" none none
            "heuristic" "g" none).1.hits
          = [aggregateHit documentCount graphEdgeCount]
        ∧ (aggregateHit documentCount graphEdgeCount).score = 1
        ∧ (aggregateHit documentCount graphEdgeCount).location
            = "aggregate://counts"
        ∧ (aggregateHit documentCount graphEdgeCount).content
            = "Aggregate count: documents=" ++ toString documentCount
              ++ ", graph_edges=" ++ toString graphEdgeCount
              ++ ", total="
              ++ toString (documentCount + graphEdgeCount)) :=
  ⟨demoStore_cacheWF,
    (retrieve_aggregate_counts plainEnv demoStore "count everything" none none
      "heuristic" "g" none demoStore_cacheWF).1⟩

/-- C10: any route outside the four retrieval routes — the direct route in
particular — yields an empty, non-degraded bundle labelled
`rerank_strategy="none"` carrying that route, and the bundle sits in the
retrieval cache under the call's key like any other result. -/
theorem retrieve_unknown_route_empty_cached (env : RetrievalEnv)
    (store : RuntimeStore) (route query : String)
    (userId userAccessToken : Option String)
    (rerankBackend rerankModel : String) (runtimeKey : Option String)
    (hwf : CacheWF store) (h1 : route ≠ "graph") (h2 : route ≠ "document")
    (h3 : route ≠ "hybrid") (h4 : route ≠ "aggregate") :
    (retrieve env store route query userId userAccessToken rerankBackend
        rerankModel runtimeKey).1.route = route
    ∧ (retrieve env store route query userId userAccessToken rerankBackend
        rerankModel runtimeKey).1.hits = []
    ∧ (retrieve env store route query userId userAccessToken rerankBackend
        rerankModel runtimeKey).1.degraded = false
    ∧ (retrieve env store route query userId userAccessToken rerankBackend
        rerankModel runtimeKey).1.backend_failures = []
    ∧ (retrieve env store route query userId userAccessToken rerankBackend
        rerankModel runtimeKey).1.rerank_strategy = "none"
    ∧ (retrieve env store route query userId userAccessToken rerankBackend
        rerankModel runtimeKey).2.retrieval_cache
        (mkCacheKey route (pyStr userId) (semanticQueryKey query)
          rerankBackend rerankModel)
      = some (retrieve env store route query userId userAccessToken
          rerankBackend rerankModel runtimeKey).1 := by
  obtain ⟨hb, hr⟩ := retrieve_wf env store route query userId userAccessToken
    rerankBackend rerankModel runtimeKey hwf
  obtain ⟨hhits, hdeg, hfail, hstrat⟩ :=
    hb.unknown_route (by rw [hr]; exact h1) (by rw [hr]; exact h2)
      (by rw [hr]; exact h3) (by rw [hr]; exact h4)
  exact ⟨hr, hhits, hdeg, hfail, hstrat,
    retrieve_cache_self env store route query userId userAccessToken
      rerankBackend rerankModel runtimeKey⟩

/-- C7 counterexample: `c7Bundle` is the bundle `retrieve` computes with
`degradedLlmEnv` on `demoStore` for the graph route of "alpha depends
beta" (Neo4j raises, the LLM reranker scores the fallback edge 0.1); it
is well formed, has hits and is degraded, yet `build_answer` gives it
confidence `"low"`, not `"medium"` — refuting "the confidence is medium"
read literally. -/
theorem build_answer_degraded_not_always_medium :
    BundleWF c7Bundle ∧ c7Bundle.hits ≠ [] ∧ c7Bundle.degraded = true
    ∧ (buildAnswer trivialGraphSummary "alpha depends beta" c7Bundle).policy
      = "degraded_answer"
    ∧ (buildAnswer trivialGraphSummary "alpha depends beta"
        c7Bundle).confidence = "low" := by
  refine ⟨⟨by decide, fun _ => ⟨by simp [c7Bundle, sortedByScoreDesc],
    by decide⟩, fun hag => absurd hag (by decide),
    fun h1 _ _ _ => absurd rfl h1⟩, by decide, rfl, ?_, ?_⟩
  · norm_num [buildAnswer, c7Bundle, confidenceForScore]
    decide
  · norm_num [buildAnswer, c7Bundle, confidenceForScore]
    decide

/-- C7 (amended): a well-formed degraded bundle with hits produces policy
`degraded_answer` and confidence low or medium, never high; a top score at
or above the 0.75 high threshold is downgraded to medium. -/
theorem build_answer_degraded_policy_confidence
    (graphSummary : String → List String → String) (query : String)
    (b : RetrievalBundle) (h : RetrievalHit) (rest : List RetrievalHit)
    (hb : BundleWF b) (hhits : b.hits = h :: rest)
    (hdeg : b.degraded = true) :
    (buildAnswer graphSummary query b).policy = "degraded_answer"
    ∧ ((buildAnswer graphSummary query b).confidence = "low"
        ∨ (buildAnswer graphSummary query b).confidence = "medium")
    ∧ (buildAnswer graphSummary query b).confidence ≠ "high"
    ∧ (3/4 ≤ h.score →
        (buildAnswer graphSummary query b).confidence = "medium") := by
  have hroute : b.route ≠ "direct" := by
    intro hd
    have hempty := (hb.unknown_route (by rw [hd]; decide) (by rw [hd]; decide)
      (by rw [hd]; decide) (by rw [hd]; decide)).1
    rw [hhits] at hempty
    exact List.cons_ne_nil _ _ hempty
  have hne : b.hits.isEmpty = false := by rw [hhits]; rfl
  unfold buildAnswer
  rw [if_neg hroute]
  simp only [hne, hdeg, Bool.false_and, Bool.and_true, if_false]
  have hhead : b.hits.headD (aggregateHit 0 0) = h := by rw [hhits]; rfl
  rw [hhead]
  unfold confidenceForScore
  by_cases h34 : 3/4 ≤ h.score
  · rw [if_pos h34]
    simp
  · rw [if_neg h34]
    by_cases h25 : 2/5 ≤ h.score
    · rw [if_pos h25]
      simp [h34]
    · rw [if_neg h25]
      simp [h34]

/-- Witness for the amended C7 on a concrete degraded bundle. -/
theorem build_answer_degraded_policy_confidence_witness :
    (buildAnswer trivialGraphSummary "alpha"
        ⟨"document", [⟨"c1", 4/5, "alpha", "private_document", "l"⟩], true,
          ["supabase:ConnectionError"], "score_normalization_v2"⟩).policy
      = "degraded_answer"
    ∧ (buildAnswer trivialGraphSummary "alpha"
        ⟨"document", [⟨"c1", 4/5, "alpha", "private_document", "l"⟩], true,
          ["supabase:ConnectionError"], "score_normalization_v2"⟩).confidence
      = "medium" := by
  have hb : BundleWF ⟨"document",
      [⟨"c1", 4/5, "alpha", "private_document", "l"⟩], true,
      ["supabase:ConnectionError"], "score_normalization_v2"⟩ := by
    refine ⟨by decide, fun _ => ⟨?_, by decide⟩, fun hag => absurd hag
      (by decide), fun _ h2 _ _ => absurd rfl h2⟩
    simp [sortedByScoreDesc]
  have hmain := build_answer_degraded_policy_confidence trivialGraphSummary
    "alpha" _ ⟨"c1", 4/5, "alpha", "private_document", "l"⟩ [] hb rfl rfl
  exact ⟨hmain.1, hmain.2.2.2 (by norm_num)⟩

/-- C2 counterexample: with `planner_max_steps = 0` and the direct
question `"hello"` the plan (1 step) is longer than the budget setting,
yet the orchestrator does not short-circuit — it answers with policy
`needs_context` because the gate compares against `max(1, budget)`. -/
theorem run_orchestration_budget_gate_counterexample :
    (plannedSteps (selectRoute "hello").path).length = 1
    ∧ ((0 : ℤ) < 1)
    ∧ (runOrchestration plainEnv trivialGraphSummary deterministicCritic
        emptyStore "hello" none none 1 0 "heuristic" "g"
        none).1.answer.policy = "needs_context" := by
  decide

/-- C2 (amended): whenever the planned tool sequence is longer than
`max(1, planner_max_steps)`, the orchestrator short-circuits before any
retrieval (the store is returned untouched), with policy
`planner_budget_exceeded`, low confidence, no citations, an empty
retrieval bundle, and exactly one planner ToolDecision with status
blocked. -/
theorem run_orchestration_budget_gate (env : RetrievalEnv)
    (graphSummary : String → List String → String) (critic : CriticFn)
    (store : RuntimeStore) (question : String)
    (userId userAccessToken : Option String)
    (maxRefinements plannerMaxSteps : ℤ)
    (rerankBackend rerankModel : String) (runtimeKey : Option String)
    (hover : (max 1 plannerMaxSteps : ℤ)
      < ((plannedSteps (selectRoute question).path).length : ℤ)) :
    (runOrchestration env graphSummary critic store question userId
        userAccessToken maxRefinements plannerMaxSteps rerankBackend
        rerankModel runtimeKey).1.answer.policy = "planner_budget_exceeded"
    ∧ (runOrchestration env graphSummary critic store question userId
        userAccessToken maxRefinements plannerMaxSteps rerankBackend
        rerankModel runtimeKey).1.answer.confidence = "low"
    ∧ (runOrchestration env graphSummary critic store question userId
        userAccessToken maxRefinements plannerMaxSteps rerankBackend
        rerankModel runtimeKey).1.answer.citations = []
    ∧ (runOrchestration env graphSummary critic store question userId
        userAccessToken maxRefinements plannerMaxSteps rerankBackend
        rerankModel runtimeKey).1.retrieval.hits = []
    ∧ (runOrchestration env graphSummary critic store question userId
        userAccessToken maxRefinements plannerMaxSteps rerankBackend
        rerankModel runtimeKey).1.tool_decisions
      = [{ tool_name := "planner"
           rationale :=
             "budget blocked execution: planned_steps="
               ++ toString (plannedSteps (selectRoute question).path).length
               ++ ", max_steps=" ++ toString (max 1 plannerMaxSteps)
           status := "blocked" }]
    ∧ (runOrchestration env graphSummary critic store question userId
        userAccessToken maxRefinements plannerMaxSteps rerankBackend
        rerankModel runtimeKey).2 = store := by
  unfold runOrchestration
  dsimp only
  rw [if_pos hover]
  exact ⟨rfl, rfl, rfl, rfl, rfl, rfl⟩

/-- Witness for the amended C2: a graph-routed question with budget 1. -/
theorem run_orchestration_budget_gate_witness :
    ((max 1 (1 : ℤ))
      < ((plannedSteps (selectRoute "show the graph").path).length : ℤ))
    ∧ (runOrchestration plainEnv trivialGraphSummary deterministicCritic
        emptyStore "show the graph" none none 1 1 "heuristic" "g"
        none).1.answer.policy = "planner_budget_exceeded" :=
  ⟨by decide,
    (run_orchestration_budget_gate plainEnv trivialGraphSummary
      deterministicCritic emptyStore "show the graph" none none 1 1
      "heuristic" "g" none (by decide)).1⟩

/-- C9 counterexample: an unsupported-content-type upload is processed to
`stage="failed"`, yet its entry is still in `queued_uploads` after
`process_ingestion_job` returns — removal happens only on the completed
path. -/
theorem process_ingestion_job_failed_leaves_upload_queued :
    c9BadStage = some "failed" ∧ c9BadQueuedAfter = some true := by
  constructor <;> rfl

/-- C9 (amended): a processed job's stage is completed or failed; the
queued-upload entry is removed when it completes, and is left in place (the
queue is untouched) on the failed outcomes. -/
theorem process_ingestion_job_queue_removal (env : IngestionEnv)
    (store : RuntimeStore) (jobId : String) (j : IngestionJob)
    (s' : RuntimeStore)
    (h : processIngestionJob env store jobId = .ok (j, s')) :
    (j.stage = "completed" ∨ j.stage = "failed")
    ∧ (j.stage = "completed" → s'.queued_uploads jobId = none)
    ∧ (j.stage = "failed" →
        s'.queued_uploads jobId = store.queued_uploads jobId) := by
  unfold processIngestionJob at h
  cases hu : store.queued_uploads jobId with
  | none => rw [hu] at h; cases hj : store.ingestion_jobs jobId <;>
      rw [hj] at h <;> simp at h
  | some upload =>
    rw [hu] at h
    cases hj : store.ingestion_jobs jobId with
    | none => rw [hj] at h; simp at h
    | some job =>
      rw [hj] at h
      simp only [setStage, finalizeIngestionJob] at h
      split at h
      · obtain ⟨hja, hsa⟩ := Prod.mk.injEq .. ▸ (Except.ok.injEq .. ▸ h)
        subst hja hsa
        exact ⟨Or.inr rfl, fun hc => by simp at hc, fun _ => hu⟩
      · split at h
        · obtain ⟨hja, hsa⟩ := Prod.mk.injEq .. ▸ (Except.ok.injEq .. ▸ h)
          subst hja hsa
          exact ⟨Or.inr rfl, fun hc => by simp at hc, fun _ => hu⟩
        · split at h
          · split at h
            · split at h
              · obtain ⟨hja, hsa⟩ :=
                  Prod.mk.injEq .. ▸ (Except.ok.injEq .. ▸ h)
                subst hja hsa
                exact ⟨Or.inr rfl, fun hc => by simp at hc, fun _ => hu⟩
              · obtain ⟨hja, hsa⟩ :=
                  Prod.mk.injEq .. ▸ (Except.ok.injEq .. ▸ h)
                subst hja hsa
                exact ⟨Or.inl rfl, fun _ => by simp, fun hc => by simp at hc⟩
            · obtain ⟨hja, hsa⟩ :=
                Prod.mk.injEq .. ▸ (Except.ok.injEq .. ▸ h)
              subst hja hsa
              exact ⟨Or.inl rfl, fun _ => by simp, fun hc => by simp at hc⟩
          · obtain ⟨hja, hsa⟩ := Prod.mk.injEq .. ▸ (Except.ok.injEq .. ▸ h)
            subst hja hsa
            exact ⟨Or.inl rfl, fun _ => by simp, fun hc => by simp at hc⟩

/-- Witness for the amended C9 on a completed text upload. -/
theorem process_ingestion_job_queue_removal_witness :
    processIngestionJob c9Env c9GoodStore "j2"
        = .ok (c9GoodResultJob, c9GoodResultStore)
    ∧ ((c9GoodResultJob.stage = "completed"
          ∨ c9GoodResultJob.stage = "failed")
      ∧ (c9GoodResultJob.stage = "completed" →
          c9GoodResultStore.queued_uploads "j2" = none)
      ∧ (c9GoodResultJob.stage = "failed" →
          c9GoodResultStore.queued_uploads "j2"
            = c9GoodStore.queued_uploads "j2")) :=
  ⟨rfl, process_ingestion_job_queue_removal c9Env c9GoodStore "j2"
    c9GoodResultJob c9GoodResultStore rfl⟩

/-- C8: with the deterministic critic and the default refinement budget
of 1, `_maybe_refine` refines exactly when the current route is document
or graph and the evidence is weak (top score < 0.35 or fewer than 2
hits); the refined retrieval re-runs with route hybrid for document and
graph for graph, and the trace gains a critic decision plus a
`retrieval_refine` decision at attempt 1; otherwise no `retrieval_refine`
is recorded, the retrieval is unchanged and only one critic decision is
appended. -/
theorem maybe_refine_deterministic_critic (env : RetrievalEnv)
    (graphSummary : String → List String → String) (question : String)
    (userId userAccessToken : Option String)
    (rerankBackend rerankModel : String) (runtimeKey : Option String)
    (initial : OrchestrationResult) (store : RuntimeStore) :
    (((initial.route = "document" ∨ initial.route = "graph")
        ∧ ((match initial.retrieval.hits with
            | [] => (0 : ℚ)
            | h :: _ => h.score) < 7/20
          ∨ initial.retrieval.hits.length < 2)) →
      maybeRefine env graphSummary deterministicCritic question userId
          userAccessToken rerankBackend rerankModel runtimeKey 1 initial store
        = ({ route := if initial.route = "document" then "hybrid" else "graph"
             route_reason :=
               "critic requested "
                 ++ (if initial.route = "document" then "hybrid" else "graph")
                 ++ " refinement"
             retrieval :=
               (retrieve env store
                 (if initial.route = "document" then "hybrid" else "graph")
                 question userId userAccessToken rerankBackend rerankModel
                 runtimeKey).1
             answer :=
               buildAnswer graphSummary question
                 (retrieve env store
                   (if initial.route = "document" then "hybrid" else "graph")
                   question userId userAccessToken rerankBackend rerankModel
                   runtimeKey).1
             tool_decisions :=
               initial.tool_decisions ++
                 [{ tool_name := "critic"
                    rationale := "low evidence on single-source route"
                    latency_ms := some 0 },
                  { tool_name := "retrieval_refine"
                    rationale :=
                      "rerouted to "
                        ++ (if initial.route = "document" then "hybrid"
                            else "graph")
                        ++ " for stronger evidence"
                    latency_ms := some 0 }] },
           (retrieve env store
             (if initial.route = "document" then "hybrid" else "graph")
             question userId userAccessToken rerankBackend rerankModel
             runtimeKey).2))
    ∧ (¬ ((initial.route = "document" ∨ initial.route = "graph")
        ∧ ((match initial.retrieval.hits with
            | [] => (0 : ℚ)
            | h :: _ => h.score) < 7/20
          ∨ initial.retrieval.hits.length < 2)) →
      (maybeRefine env graphSummary deterministicCritic question userId
          userAccessToken rerankBackend rerankModel runtimeKey 1 initial
          store).1.route = initial.route
      ∧ (maybeRefine env graphSummary deterministicCritic question userId
          userAccessToken rerankBackend rerankModel runtimeKey 1 initial
          store).1.retrieval = initial.retrieval
      ∧ (maybeRefine env graphSummary deterministicCritic question userId
          userAccessToken rerankBackend rerankModel runtimeKey 1 initial
          store).2 = store
      ∧ ∃ d : ToolDecision,
          (maybeRefine env graphSummary deterministicCritic question userId
            userAccessToken rerankBackend rerankModel runtimeKey 1 initial
            store).1.tool_decisions = initial.tool_decisions ++ [d]
          ∧ d.tool_name = "critic") := by
  constructor
  · rintro ⟨hroute, hweak⟩
    have hb : (!(initial.route = "document" || initial.route = "graph"))
        = false := by
      rcases hroute with h | h <;> simp [h]
    have hcrit : deterministicCritic question initial.route
        (match initial.retrieval.hits with
          | [] => (0 : ℚ)
          | h :: _ => h.score) initial.retrieval.hits.length
        = ⟨true, "low evidence on single-source route"⟩ := by
      unfold deterministicCritic
      rcases hroute with h | h <;> rcases hweak with hw | hw <;>
        simp [h, hw]
    unfold maybeRefine
    simp only [Int.toNat_one, refineGo, hb, Bool.false_eq_true, if_false,
      hcrit, Bool.not_true]
  · intro hnot
    by_cases hroute : initial.route = "document" ∨ initial.route = "graph"
    · have hstrong : ¬ ((match initial.retrieval.hits with
          | [] => (0 : ℚ)
          | h :: _ => h.score) < 7/20
            ∨ initial.retrieval.hits.length < 2) :=
        fun hw => hnot ⟨hroute, hw⟩
      push_neg at hstrong
      have hn1 : ¬ ((match initial.retrieval.hits with
          | [] => (0 : ℚ)
          | h :: _ => h.score) < 7/20) := not_lt.mpr hstrong.1
      have hn2 : ¬ (initial.retrieval.hits.length < 2) :=
        not_lt.mpr hstrong.2
      have hb : (!(initial.route = "document" || initial.route = "graph"))
          = false := by
        rcases hroute with h | h <;> simp [h]
      have hcrit : deterministicCritic question initial.route
          (match initial.retrieval.hits with
            | [] => (0 : ℚ)
            | h :: _ => h.score) initial.retrieval.hits.length
          = ⟨false, "evidence is sufficient"⟩ := by
        unfold deterministicCritic
        rw [if_neg]
        simp [hn1, hn2]
      have hmain : maybeRefine env graphSummary deterministicCritic question
          userId userAccessToken rerankBackend rerankModel runtimeKey 1
          initial store
          = ({ initial with
                tool_decisions :=
                  initial.tool_decisions ++
                    [{ tool_name := "critic"
                       rationale := "evidence is sufficient"
                       latency_ms := some 0 }] }, store) := by
        unfold maybeRefine
        simp only [Int.toNat_one, refineGo, hb, Bool.false_eq_true, if_false,
          hcrit, Bool.not_false]
        rfl
      rw [hmain]
      exact ⟨rfl, rfl, rfl,
        ⟨{ tool_name := "critic", rationale := "evidence is sufficient",
           latency_ms := some 0 }, rfl, rfl⟩⟩
    · push_neg at hroute
      have hb : (!(initial.route = "document" || initial.route = "graph"))
          = true := by
        simp [hroute.1, hroute.2]
      have hmain : maybeRefine env graphSummary deterministicCritic question
          userId userAccessToken rerankBackend rerankModel runtimeKey 1
          initial store
          = ({ initial with
                tool_decisions :=
                  initial.tool_decisions ++
                    [{ tool_name := "critic"
                       rationale := "no refinement needed for current route"
                       status := "skipped" }] }, store) := by
        unfold maybeRefine
        simp only [Int.toNat_one, refineGo, hb, if_true]
      rw [hmain]
      exact ⟨rfl, rfl, rfl,
        ⟨{ tool_name := "critic"
           rationale := "no refinement needed for current route"
           status := "skipped" }, rfl, rfl⟩⟩

/-- Adjusting the decomposition point of a suffix decomposition. -/
theorem exists_suffix_trans {a : Type} {x d l : List a}
    (h : ∃ s, x = (d ++ l) ++ s) : ∃ s, x = d ++ s := by
  obtain ⟨s, hs⟩ := h
  exact ⟨l ++ s, by rw [hs, List.append_assoc]⟩

/-- The refinement loop only ever appends to the decision trace. -/
theorem refineGo_decisions_extend (env : RetrievalEnv)
    (graphSummary : String → List String → String) (critic : CriticFn)
    (question : String) (userId userAccessToken : Option String)
    (rerankBackend rerankModel : String) (runtimeKey : Option String) :
    ∀ (fuel attempt : ℕ) (current : OrchestrationResult)
      (decisions : List ToolDecision) (store : RuntimeStore),
      ∃ suffix,
        (refineGo env graphSummary critic question userId userAccessToken
          rerankBackend rerankModel runtimeKey fuel attempt current decisions
          store).2.1 = decisions ++ suffix := by
  intro fuel
  induction fuel with
  | zero =>
    intro attempt current decisions store
    exact ⟨[], by simp [refineGo]⟩
  | succ fuel ih =>
    intro attempt current decisions store
    rw [refineGo]
    split
    · exact ⟨_, rfl⟩
    · dsimp only
      rcases hhits : current.retrieval.hits with _ | ⟨h0, hrest⟩ <;>
        dsimp only <;> split
      · exact ⟨_, rfl⟩
      · rcases hret : retrieve env store
            (if current.route = "document" then "hybrid" else "graph")
            question userId userAccessToken rerankBackend rerankModel
            runtimeKey with ⟨rb, rs⟩
        exact exists_suffix_trans (ih (attempt + 1) _ _ _)
      · exact ⟨_, rfl⟩
      · rcases hret : retrieve env store
            (if current.route = "document" then "hybrid" else "graph")
            question userId userAccessToken rerankBackend rerankModel
            runtimeKey with ⟨rb, rs⟩
        exact exists_suffix_trans (ih (attempt + 1) _ _ _)

/-- For any refinement budget of at least one attempt, the deterministic
critic triggers a `retrieval_refine` decision exactly when the current
route is document or graph and the evidence is weak. -/
theorem maybe_refine_refines_iff_weak (env : RetrievalEnv)
    (graphSummary : String → List String → String) (question : String)
    (userId userAccessToken : Option String)
    (rerankBackend rerankModel : String) (runtimeKey : Option String)
    (initial : OrchestrationResult) (store : RuntimeStore)
    (maxRefinements : ℤ) (hbudget : 1 ≤ maxRefinements) :
    ((∃ d ∈ ((maybeRefine env graphSummary deterministicCritic question
          userId userAccessToken rerankBackend rerankModel runtimeKey
          maxRefinements initial store).1.tool_decisions.drop
            initial.tool_decisions.length),
        d.tool_name = "retrieval_refine")
      ↔ ((initial.route = "document" ∨ initial.route = "graph")
          ∧ ((match initial.retrieval.hits with
              | [] => (0 : ℚ)
              | h :: _ => h.score) < 7/20
            ∨ initial.retrieval.hits.length < 2))) := by
  obtain ⟨fuel, hfuel⟩ : ∃ fuel, maxRefinements.toNat = fuel + 1 :=
    ⟨maxRefinements.toNat - 1, by omega⟩
  unfold maybeRefine
  rw [hfuel]
  constructor
  · rintro ⟨d, hd, hdname⟩
    by_contra hnot
    by_cases hroute : initial.route = "document" ∨ initial.route = "graph"
    · have hstrong : ¬ ((match initial.retrieval.hits with
          | [] => (0 : ℚ)
          | h :: _ => h.score) < 7/20
            ∨ initial.retrieval.hits.length < 2) :=
        fun hw => hnot ⟨hroute, hw⟩
      push_neg at hstrong
      have hn1 := not_lt.mpr hstrong.1
      have hn2 := not_lt.mpr hstrong.2
      have hb : (!(initial.route = "document" || initial.route = "graph"))
          = false := by
        rcases hroute with h | h <;> simp [h]
      have hcrit : deterministicCritic question initial.route
          (match initial.retrieval.hits with
            | [] => (0 : ℚ)
            | h :: _ => h.score) initial.retrieval.hits.length
          = ⟨false, "evidence is sufficient"⟩ := by
        unfold deterministicCritic
        rw [if_neg]
        simp [hn1, hn2]
      rw [refineGo] at hd
      simp only [hb, Bool.false_eq_true, if_false, hcrit,
        Bool.not_false, if_true] at hd
      rw [List.drop_append_of_le_length le_rfl, List.drop_length] at hd
      simp at hd
      rw [hd] at hdname
      simp at hdname
    · push_neg at hroute
      have hb : (!(initial.route = "document" || initial.route = "graph"))
          = true := by
        simp [hroute.1, hroute.2]
      rw [refineGo] at hd
      simp only [hb, if_true] at hd
      rw [List.drop_append_of_le_length le_rfl, List.drop_length] at hd
      simp at hd
      rw [hd] at hdname
      simp at hdname
  · rintro ⟨hroute, hweak⟩
    have hb : (!(initial.route = "document" || initial.route = "graph"))
        = false := by
      rcases hroute with h | h <;> simp [h]
    have hcrit : deterministicCritic question initial.route
        (match initial.retrieval.hits with
          | [] => (0 : ℚ)
          | h :: _ => h.score) initial.retrieval.hits.length
        = ⟨true, "low evidence on single-source route"⟩ := by
      unfold deterministicCritic
      rcases hroute with h | h <;> rcases hweak with hw | hw <;>
        simp [h, hw]
    rw [refineGo]
    simp only [hb, Bool.false_eq_true, if_false, hcrit, Bool.not_true]
    rcases hret : retrieve env store
        (if initial.route = "document" then "hybrid" else "graph") question
        userId userAccessToken rerankBackend rerankModel runtimeKey with
      ⟨rb, rs⟩
    dsimp only
    obtain ⟨suffix, hsuffix⟩ := refineGo_decisions_extend env graphSummary
      deterministicCritic question userId userAccessToken rerankBackend
      rerankModel runtimeKey fuel (1 + 1) _ _ _
    rw [hsuffix]
    refine ⟨{ tool_name := "retrieval_refine"
              rationale :=
                "rerouted to "
                  ++ (if initial.route = "document" then "hybrid"
                      else "graph")
                  ++ " for stronger evidence"
              latency_ms := some 0, attempt := 1 }, ?_, rfl⟩
    rw [List.append_assoc, List.drop_append_of_le_length le_rfl,
      List.drop_length]
    simp

/-- Witness for C8: a weak document-routed result refines to hybrid. -/
theorem maybe_refine_deterministic_critic_witness :
    maybeRefine plainEnv trivialGraphSummary deterministicCritic "file alpha"
        none none "heuristic" "g" none 1 c8Initial demoStore
      = ({ route := "hybrid"
           route_reason := "critic requested hybrid refinement"
           retrieval :=
             (retrieve plainEnv demoStore "hybrid" "file alpha" none none
               "heuristic" "g" none).1
           answer :=
             buildAnswer trivialGraphSummary "file alpha"
               (retrieve plainEnv demoStore "hybrid" "file alpha" none none
                 "heuristic" "g" none).1
           tool_decisions :=
             c8Initial.tool_decisions ++
               [{ tool_name := "critic"
                  rationale := "low evidence on single-source route"
                  latency_ms := some 0 },
                { tool_name := "retrieval_refine"
                  rationale := "rerouted to hybrid for stronger evidence"
                  latency_ms := some 0 }] },
         (retrieve plainEnv demoStore "hybrid" "file alpha" none none
           "heuristic" "g" none).2) :=
  (maybe_refine_deterministic_critic plainEnv trivialGraphSummary
    "file alpha" none none "heuristic" "g" none c8Initial demoStore).1
    ⟨Or.inl rfl, Or.inr (by decide)⟩

/-- Witness for C10 on the direct route. -/
theorem retrieve_unknown_route_empty_cached_witness :
    CacheWF demoStore ∧
      ((retrieve plainEnv demoStore "direct" "hi there" none none "heuristic"
          "g" none).1.hits = []
        ∧ (retrieve plainEnv demoStore "direct" "hi there" none none
            "heuristic" "g" none).1.rerank_strategy = "none") :=
  ⟨demoStore_cacheWF,
    ⟨(retrieve_unknown_route_empty_cached plainEnv demoStore "direct"
        "hi there" none none "heuristic" "g" none demoStore_cacheWF
        (by decide) (by decide) (by decide) (by decide)).2.1,
      (retrieve_unknown_route_empty_cached plainEnv demoStore "direct"
        "hi there" none none "heuristic" "g" none demoStore_cacheWF
        (by decide) (by decide) (by decide) (by decide)).2.2.2.2.1⟩⟩

end Lattice
